import Mathlib

/-!
# Verification development for the dgal 2D geometry kernel

Shallow embedding of `src/geometry.hpp` and `src/geometry_grad.hpp`
(namespace `dgal`) over exact rational arithmetic, together with proofs
about the embedded operations.

Modelling conventions:

* `scalar_t` (float/double) is embedded as `ℚ`, i.e. we reason about the
  exact real semantics of the arithmetic expressions in the source.
* `hypot` (used by `distance`), `sin`/`cos` (used by `poly2_from_xywhr`)
  are transcendental; they are passed as explicit function parameters
  `hyp`, `sn`, `cs` so every definition stays executable.  A theorem that
  needs the defining property of `hypot` takes it as a hypothesis at the
  points where it is used.
* `atan2` (used by `_slope_pp`) only ever flows into order comparisons of
  angles.  We embed it by the standard "pseudoangle": a rational function
  of the direction vector that is strictly increasing in the
  `atan2`-angle, with range inside `[-2, 2]` corresponding to `[-π, π]`.
  The constant `-π` used to initialise the sweeps becomes `-2`.
* `uint8_t` indices become `ℕ`; C arrays of points become `List Point2`
  for forward polygons (`nvertices` = list length) and total functions
  `ℕ → Point2` for gradient-accumulator polygons (a C array buffer of
  statically unknown capacity).  Flag buffers written by the algorithms
  become `List ℕ` (entry `i` of the list is the flag written at buffer
  index `i`).
* Unbounded `while` loops get an explicit `fuel : ℕ`; running out of fuel
  is reported as a failure (`none`), distinct from every normal outcome.
  A failed `assert` in the source is likewise embedded as `none`.
-/

namespace dgal

/-- `Point2` from geometry.hpp: a point in the 2D plane. -/
structure Point2 where
  x : ℚ := 0
  y : ℚ := 0
deriving DecidableEq, Repr

/-- Gradient accumulation `Point2::operator+=` (geometry.hpp line 151). -/
instance : Add Point2 := ⟨fun p q => ⟨p.x + q.x, p.y + q.y⟩⟩

instance : Zero Point2 := ⟨⟨0, 0⟩⟩

@[simp] theorem Point2.add_x (p q : Point2) : (p + q).x = p.x + q.x := rfl
@[simp] theorem Point2.add_y (p q : Point2) : (p + q).y = p.y + q.y := rfl
@[simp] theorem Point2.zero_x : (0 : Point2).x = 0 := rfl
@[simp] theorem Point2.zero_y : (0 : Point2).y = 0 := rfl

theorem Point2.ext_xy {p q : Point2} (hx : p.x = q.x) (hy : p.y = q.y) : p = q := by
  cases p; cases q; simp_all

/-- `Line2`: infinite directional line `a*x + b*y + c = 0`. -/
structure Line2 where
  a : ℚ := 0
  b : ℚ := 0
  c : ℚ := 0
deriving DecidableEq, Repr

instance : Add Line2 := ⟨fun l m => ⟨l.a + m.a, l.b + m.b, l.c + m.c⟩⟩
instance : Zero Line2 := ⟨⟨0, 0, 0⟩⟩

@[simp] theorem Line2.add_a (l m : Line2) : (l + m).a = l.a + m.a := rfl
@[simp] theorem Line2.add_b (l m : Line2) : (l + m).b = l.b + m.b := rfl
@[simp] theorem Line2.add_c (l m : Line2) : (l + m).c = l.c + m.c := rfl
@[simp] theorem Line2.zero_a : (0 : Line2).a = 0 := rfl
@[simp] theorem Line2.zero_b : (0 : Line2).b = 0 := rfl
@[simp] theorem Line2.zero_c : (0 : Line2).c = 0 := rfl

/-- `Segment2`: directed segment `(x1,y1) -> (x2,y2)`. -/
structure Segment2 where
  x1 : ℚ := 0
  y1 : ℚ := 0
  x2 : ℚ := 0
  y2 : ℚ := 0
deriving DecidableEq, Repr

instance : Add Segment2 := ⟨fun s t => ⟨s.x1 + t.x1, s.y1 + t.y1, s.x2 + t.x2, s.y2 + t.y2⟩⟩
instance : Zero Segment2 := ⟨⟨0, 0, 0, 0⟩⟩

@[simp] theorem Segment2.add_x1 (s t : Segment2) : (s + t).x1 = s.x1 + t.x1 := rfl
@[simp] theorem Segment2.add_y1 (s t : Segment2) : (s + t).y1 = s.y1 + t.y1 := rfl
@[simp] theorem Segment2.add_x2 (s t : Segment2) : (s + t).x2 = s.x2 + t.x2 := rfl
@[simp] theorem Segment2.add_y2 (s t : Segment2) : (s + t).y2 = s.y2 + t.y2 := rfl
@[simp] theorem Segment2.zero_x1 : (0 : Segment2).x1 = 0 := rfl
@[simp] theorem Segment2.zero_y1 : (0 : Segment2).y1 = 0 := rfl
@[simp] theorem Segment2.zero_x2 : (0 : Segment2).x2 = 0 := rfl
@[simp] theorem Segment2.zero_y2 : (0 : Segment2).y2 = 0 := rfl

/-- `AABox2`: axis-aligned box; contract `max_x ≥ min_x`, `max_y ≥ min_y`. -/
structure AABox2 where
  min_x : ℚ := 0
  max_x : ℚ := 0
  min_y : ℚ := 0
  max_y : ℚ := 0
deriving DecidableEq, Repr

instance : Add AABox2 :=
  ⟨fun a b => ⟨a.min_x + b.min_x, a.max_x + b.max_x, a.min_y + b.min_y, a.max_y + b.max_y⟩⟩
instance : Zero AABox2 := ⟨⟨0, 0, 0, 0⟩⟩

@[simp] theorem AABox2.add_min_x (a b : AABox2) : (a + b).min_x = a.min_x + b.min_x := rfl
@[simp] theorem AABox2.add_max_x (a b : AABox2) : (a + b).max_x = a.max_x + b.max_x := rfl
@[simp] theorem AABox2.add_min_y (a b : AABox2) : (a + b).min_y = a.min_y + b.min_y := rfl
@[simp] theorem AABox2.add_max_y (a b : AABox2) : (a + b).max_y = a.max_y + b.max_y := rfl
@[simp] theorem AABox2.zero_min_x : (0 : AABox2).min_x = 0 := rfl
@[simp] theorem AABox2.zero_max_x : (0 : AABox2).max_x = 0 := rfl
@[simp] theorem AABox2.zero_min_y : (0 : AABox2).min_y = 0 := rfl
@[simp] theorem AABox2.zero_max_y : (0 : AABox2).max_y = 0 := rfl

/-- `Poly2`: convex polygon, vertices in counter-clockwise order.  The C
fixed-capacity array together with `nvertices` is embedded as the list of
the first `nvertices` entries. -/
structure Poly2 where
  vertices : List Point2
deriving DecidableEq, Repr

/-- `nvertices`: the actual number of vertices. -/
def Poly2.nvertices (p : Poly2) : ℕ := p.vertices.length

/-- Array read `p.vertices[i]`; out-of-range reads (which the source never
relies on for its results) give the default point. -/
def vget (p : Poly2) (i : ℕ) : Point2 := p.vertices.getD i 0

@[simp] theorem vget_def (p : Poly2) (i : ℕ) : vget p i = p.vertices.getD i 0 := rfl

/-- Helper `_max` (geometry.hpp line 136): `a > b ? a : b`. -/
def _max (a b : ℚ) : ℚ := if a > b then a else b

/-- Helper `_min` (geometry.hpp line 138): `a < b ? a : b`. -/
def _min (a b : ℚ) : ℚ := if a < b then a else b

/-- Helper `_mod_inc` (geometry.hpp line 140): cyclic increment `i` modulo `n`. -/
def _mod_inc (i n : ℕ) : ℕ := if i < n - 1 then i + 1 else 0

/-- Helper `_mod_dec` (geometry.hpp line 142): cyclic decrement `i` modulo `n`. -/
def _mod_dec (i n : ℕ) : ℕ := if i > 0 then i - 1 else n - 1

/-- `_cross` (geometry.hpp line 160): cross product of `p1->p2` and `p2->t`. -/
def _cross (p1 p2 t : Point2) : ℚ :=
  (p2.x - p1.x) * (t.y - p2.y) - (p2.y - p1.y) * (t.x - p2.x)

/-! ## Constructors (geometry.hpp lines 331-429) -/

/-- `line2_from_xyxy`: the directed line through `(x1,y1)` then `(x2,y2)`. -/
def line2_from_xyxy (x1 y1 x2 y2 : ℚ) : Line2 :=
  { a := y2 - y1, b := x1 - x2, c := x2 * y1 - x1 * y2 }

/-- `line2_from_pp`. -/
def line2_from_pp (p1 p2 : Point2) : Line2 :=
  line2_from_xyxy p1.x p1.y p2.x p2.y

/-- `segment2_from_pp`. -/
def segment2_from_pp (p1 p2 : Point2) : Segment2 :=
  { x1 := p1.x, y1 := p1.y, x2 := p2.x, y2 := p2.y }

/-- `line2_from_segment2`. -/
def line2_from_segment2 (s : Segment2) : Line2 :=
  line2_from_xyxy s.x1 s.y1 s.x2 s.y2

/-- `poly2_from_aabox2` (geometry.hpp line 388): box corners in CCW order. -/
def poly2_from_aabox2 (a : AABox2) : Poly2 :=
  { vertices := [⟨a.min_x, a.min_y⟩, ⟨a.max_x, a.min_y⟩, ⟨a.max_x, a.max_y⟩, ⟨a.min_x, a.max_y⟩] }

/-- `aabox2_from_poly2` (geometry.hpp line 399): bounding box of a polygon,
a fold of `_min`/`_max` over vertices `1..n-1` starting from vertex `0`. -/
def aabox2_from_poly2 (p : Poly2) : AABox2 :=
  (p.vertices.drop 1).foldl
    (fun r v =>
      { min_x := _min v.x r.min_x, max_x := _max v.x r.max_x
        min_y := _min v.y r.min_y, max_y := _max v.y r.max_y })
    { min_x := (vget p 0).x, max_x := (vget p 0).x
      min_y := (vget p 0).y, max_y := (vget p 0).y }

/-- `poly2_from_xywhr` (geometry.hpp line 418); `sn`, `cs` embed `sin`, `cos`. -/
def poly2_from_xywhr (sn cs : ℚ → ℚ) (x y w h r : ℚ) : Poly2 :=
  let dxsin := w * sn r / 2; let dxcos := w * cs r / 2
  let dysin := h * sn r / 2; let dycos := h * cs r / 2
  { vertices :=
      [ ⟨x - dxcos + dysin, y - dxsin - dycos⟩
      , ⟨x + dxcos + dysin, y + dxsin - dycos⟩
      , ⟨x + dxcos - dysin, y + dxsin + dycos⟩
      , ⟨x - dxcos - dysin, y - dxsin + dycos⟩ ] }

/-! ## Scalar metrics -/

/-- `distance(Point2, Point2)` (geometry.hpp line 434); `hyp` embeds `hypot`. -/
def distance_pp (hyp : ℚ → ℚ → ℚ) (p1 p2 : Point2) : ℚ :=
  hyp (p1.x - p2.x) (p1.y - p2.y)

/-- `area(AABox2)` (geometry.hpp line 915). -/
def areaBox (a : AABox2) : ℚ := (a.max_x - a.min_x) * (a.max_y - a.min_y)

/-- The determinant `a.x*b.y - b.x*a.y`, one term of the shoelace sum. -/
def _det (a b : Point2) : ℚ := a.x * b.y - b.x * a.y

/-- Sum of `_det` over adjacent vertex pairs: the loop body of `area`
(geometry.hpp lines 929-930 accumulate `x[i-1]*y[i] - x[i]*y[i-1]` for
`i = 1 .. n-1`). -/
def adjSum : List Point2 → ℚ
  | a :: b :: rest => _det a b + adjSum (b :: rest)
  | _ => 0

/-- `area(Poly2)` (geometry.hpp lines 921-932): `0` for `≤ 2` vertices,
otherwise the head/tail shoelace term plus the adjacent-pair loop, halved. -/
def area (p : Poly2) : ℚ :=
  if p.nvertices ≤ 2 then 0
  else (_det (vget p (p.nvertices - 1)) (vget p 0) + adjSum p.vertices) / 2

/-- The textbook signed shoelace sum `Σ_i (x_i y_{i+1 mod n} - x_{i+1 mod n} y_i)`,
used to state what `area`'s loop computes. -/
def shoelaceSum (p : Poly2) : ℚ :=
  ∑ i ∈ Finset.range p.nvertices, _det (vget p i) (vget p ((i + 1) % p.nvertices))

/-- The polygon contract of `Poly2` (geometry.hpp line 203): at least 3
vertices, in strictly convex counter-clockwise position — every vertex not
on edge `i` lies strictly to the left of the directed edge `i`. -/
def ccwConvex (p : Poly2) : Prop :=
  3 ≤ p.nvertices ∧
    ∀ i < p.nvertices, ∀ j < p.nvertices,
      j ≠ i → j ≠ _mod_inc i p.nvertices →
        0 < _cross (vget p i) (vget p (_mod_inc i p.nvertices)) (vget p j)

instance (p : Poly2) : Decidable (ccwConvex p) := by
  unfold ccwConvex; infer_instance

/-! ## Signed distances (geometry.hpp lines 442-503) -/

/-- `distance(Line2, Point2)`: signed distance `(a x + b y + c) / hypot(a,b)`. -/
def distance_lp (hyp : ℚ → ℚ → ℚ) (l : Line2) (p : Point2) : ℚ :=
  (l.a * p.x + l.b * p.y + l.c) / hyp l.a l.b

/-- `point_from_t` / `t_from_pxy` (geometry.hpp lines 360-381): the single
parameter of the projection of `(x, y)` onto line `l`. -/
def t_from_pxy (l : Line2) (x y : ℚ) : ℚ :=
  if l.b = 0 then (1 - y) / l.a
  else if l.a = 0 then (x - 1) / l.b
  else (l.b * x - l.a * y - l.a * (l.a + l.c) / l.b - l.b) / (l.a * l.a + l.b * l.b)

/-- `t_from_ppoint`. -/
def t_from_ppoint (l : Line2) (p : Point2) : ℚ := t_from_pxy l p.x p.y

/-- `distance(Segment2, Point2)` (geometry.hpp lines 453-474). -/
def distance_sp (hyp : ℚ → ℚ → ℚ) (s : Segment2) (p : Point2) : ℚ :=
  let l := line2_from_segment2 s
  let t := t_from_ppoint l p
  let sign := l.a * p.x + l.b * p.y + l.c
  if t < t_from_pxy l s.x2 s.y2 then
    let d := distance_pp hyp p ⟨s.x2, s.y2⟩
    if sign > 0 then d else -d
  else if t > t_from_pxy l s.x1 s.y1 then
    let d := distance_pp hyp p ⟨s.x1, s.y1⟩
    if sign > 0 then d else -d
  else sign / hyp l.a l.b

/-- `distance(Poly2, Point2, idx)` (geometry.hpp lines 482-497): minimum
magnitude signed edge distance plus the minimising edge index. -/
def distance_poly (hyp : ℚ → ℚ → ℚ) (poly : Poly2) (p : Point2) : ℚ × ℕ :=
  let n := poly.nvertices
  let d0 := -(distance_sp hyp (segment2_from_pp (vget poly (n - 1)) (vget poly 0)) p)
  (List.range' 1 (n - 1)).foldl
    (fun (acc : ℚ × ℕ) i =>
      let dl := -(distance_sp hyp (segment2_from_pp (vget poly (i - 1)) (vget poly i)) p)
      if |dl| < |acc.1| then (dl, i - 1) else acc)
    (d0, n - 1)

/-- `intersect(Line2, Line2)` (geometry.hpp line 507): Cramer's rule. -/
def intersectLL (l1 l2 : Line2) : Point2 :=
  let w := l1.a * l2.b - l2.a * l1.b
  ⟨(l1.b * l2.c - l2.b * l1.c) / w, (l1.c * l2.a - l2.c * l1.a) / w⟩

/-- `intersect(AABox2, AABox2)` (geometry.hpp lines 513-529). -/
def intersectBB (a1 a2 : AABox2) : AABox2 :=
  if a1.max_x ≤ a2.min_x ∨ a1.min_x ≥ a2.max_x ∨ a1.max_y ≤ a2.min_y ∨ a1.min_y ≥ a2.max_y
  then ⟨0, 0, 0, 0⟩
  else ⟨_max a1.min_x a2.min_x, _min a1.max_x a2.max_x,
        _max a1.min_y a2.min_y, _min a1.max_y a2.max_y⟩


/-- `merge(AABox2, AABox2)` (geometry.hpp line 1126). -/
def mergeBB (a1 a2 : AABox2) : AABox2 :=
  ⟨_min a1.min_x a2.min_x, _max a1.max_x a2.max_x,
   _min a1.min_y a2.min_y, _max a1.max_y a2.max_y⟩

/-! ## Rotating-caliper machinery (geometry.hpp lines 531-842)

`_slope_pp` computes `atan2(dy - eps, dx)`, whose value is only ever used
in order comparisons.  We replace `atan2` by the order-isomorphic rational
pseudoangle below (strictly increasing in the angle, range `[-2, 2]`
corresponding to `(-π, π]`), so every comparison in the sweep has exactly
the real-number semantics of the source.  The sweep's initial
`edge_angle = -π` becomes `-2`; like `-π` for `atan2` it is strictly below
every pseudoangle the (eps-shifted) source can produce. -/

/-- Monotone rational substitute for `atan2 y x`. -/
def pseudoangle (x y : ℚ) : ℚ :=
  if 0 < y then 1 - x / (|x| + |y|)
  else if y < 0 then x / (|x| + |y|) - 1
  else if x < 0 then 2 else 0

/-- `_slope_pp` (geometry.hpp line 606): slope angle from `p1` to `p2`, with
the source's `eps` shift of the y-component (`ε` is `Numeric::eps()`). -/
def _slope_pp (ε : ℚ) (p1 p2 : Point2) : ℚ :=
  pseudoangle (p2.x - p1.x) (p2.y - p1.y - ε)

/-- The sweep start angle `-π` in pseudoangle scale. -/
def negPi : ℚ := -2

/-- `_find_extreme` with `TopRight = true` (geometry.hpp lines 591-602):
index and value of the first vertex with maximal `y`. -/
def _find_extreme (p : Poly2) : ℕ × ℚ :=
  (List.range' 1 (p.nvertices - 1)).foldl
    (fun (acc : ℕ × ℚ) i => if (vget p i).y > acc.2 then (i, (vget p i).y) else acc)
    (0, (vget p 0).y)

/-- `_find_extreme` with `TopRight = false`: first vertex with minimal `y`. -/
def _find_extreme_bot (p : Poly2) : ℕ × ℚ :=
  (List.range' 1 (p.nvertices - 1)).foldl
    (fun (acc : ℕ × ℚ) i => if (vget p i).y < acc.2 then (i, (vget p i).y) else acc)
    (0, (vget p 0).y)

/-- Outcome of `_check_valid_bridge` (geometry.hpp lines 613-671):
`invalid` = returns false, `valid r` = returns true with `reverse = r`,
`degenerate` = the `assert(false)` (all four tests within eps of zero). -/
inductive BridgeCheck where
  | invalid : BridgeCheck
  | valid (reverse : Bool) : BridgeCheck
  | degenerate : BridgeCheck
deriving DecidableEq, Repr

/-- One of the four sequential sign tests in `_check_valid_bridge`; the
state is `none` before any test exceeded eps, `some r` once `reverse = r`
was recorded.  `Except.error` is the early `return false`. -/
def _cvb_step (ε d : ℚ) (st : Option Bool) : Except Unit (Option Bool) :=
  if |d| > ε then
    match st with
    | some r => if r ≠ decide (d < 0) then .error () else .ok (some r)
    | none => .ok (some (decide (d < 0)))
  else .ok st

/-- `_check_valid_bridge p1 p2 idx1 idx2`. -/
def _check_valid_bridge (ε : ℚ) (p1 p2 : Poly2) (idx1 idx2 : ℕ) : BridgeCheck :=
  let d1 := _cross (vget p1 idx1) (vget p2 idx2) (vget p1 (_mod_dec idx1 p1.nvertices))
  let d2 := _cross (vget p1 idx1) (vget p2 idx2) (vget p1 (_mod_inc idx1 p1.nvertices))
  let d3 := _cross (vget p1 idx1) (vget p2 idx2) (vget p2 (_mod_dec idx2 p2.nvertices))
  let d4 := _cross (vget p1 idx1) (vget p2 idx2) (vget p2 (_mod_inc idx2 p2.nvertices))
  match (_cvb_step ε d1 none).bind fun s1 =>
        (_cvb_step ε d2 s1).bind fun s2 =>
        (_cvb_step ε d3 s2).bind fun s3 => _cvb_step ε d4 s3 with
  | .error _ => .invalid
  | .ok none => .degenerate
  | .ok (some r) => .valid r

/-- Inner "traverse down along p2" loop of `_find_intersection_under_bridge`
(geometry.hpp lines 549-562).  Returns `none` for the `return false` path
(or fuel exhaustion), otherwise the final `i2` and whether any step was
taken (`finished` was cleared). -/
def _fiub_down2 (ε : ℚ) (p1a p1b : Point2) (p2 : Poly2) :
    ℕ → ℕ → Option ℚ → Bool → Option (ℕ × Bool)
  | 0, _, _, _ => none
  | fuel + 1, i2, last, moved =>
    let dist := _cross p1a p1b (vget p2 (_mod_inc i2 p2.nvertices))
    if (match last with | some l => decide (dist < l) | none => false) then none
    else if dist > -ε then some (i2, moved)
    else _fiub_down2 ε p1a p1b p2 fuel (_mod_inc i2 p2.nvertices) (some dist) true

/-- Inner "traverse down along p1" loop (geometry.hpp lines 565-578). -/
def _fiub_down1 (ε : ℚ) (p2a p2b : Point2) (p1 : Poly2) :
    ℕ → ℕ → Option ℚ → Bool → Option (ℕ × Bool)
  | 0, _, _, _ => none
  | fuel + 1, i1, last, moved =>
    let dist := _cross p2a p2b (vget p1 (_mod_dec i1 p1.nvertices))
    if (match last with | some l => decide (dist < l) | none => false) then none
    else if dist > -ε then some (i1, moved)
    else _fiub_down1 ε p2a p2b p1 fuel (_mod_dec i1 p1.nvertices) (some dist) true

/-- Outer `while (!finished)` loop of `_find_intersection_under_bridge`. -/
def _fiub_loop (ε : ℚ) (p1 p2 : Poly2) : ℕ → ℕ → ℕ → Option (ℕ × ℕ)
  | 0, _, _ => none
  | fuel + 1, i1, i2 =>
    match _fiub_down2 ε (vget p1 (_mod_dec i1 p1.nvertices)) (vget p1 i1) p2
        (2 * (p1.nvertices + p2.nvertices) + 4) i2 none false with
    | none => none
    | some (i2', moved2) =>
      match _fiub_down1 ε (vget p2 i2') (vget p2 (_mod_inc i2' p2.nvertices)) p1
          (2 * (p1.nvertices + p2.nvertices) + 4) i1 none false with
      | none => none
      | some (i1', moved1) =>
        if moved2 || moved1 then _fiub_loop ε p1 p2 fuel i1' i2'
        else some (i1', i2')

/-- `_find_intersection_under_bridge` (geometry.hpp lines 536-585): the
crossing edges below a bridge; `none` = `return false` (no intersection). -/
def _find_intersection_under_bridge (ε : ℚ) (p1 p2 : Poly2) (idx1 idx2 : ℕ) :
    Option (ℕ × ℕ) :=
  match _fiub_loop ε p1 p2 (2 * (p1.nvertices + p2.nvertices) + 4) idx1 idx2 with
  | none => none
  | some (i1, i2) => some (_mod_dec i1 p1.nvertices, i2)

/-- Outcome of the angular sweep of `intersect(RotatingCaliper, ...)`
(geometry.hpp lines 703-756): `fail` = a degenerate bridge check (the
`assert(false)`) or fuel exhaustion; `empty` = an accepted bridge with no
intersection below it (the early `return {}`); `done bridges edge_flag` =
the loop broke normally, having accepted the listed `(x1indices, x2indices)`
pairs, with the recorded initial `edge_flag`. -/
inductive SweepOut where
  | fail : SweepOut
  | empty : SweepOut
  | done (bridges : List (ℕ × ℕ)) (edge_flag : Bool) : SweepOut
deriving DecidableEq, Repr

/-- The rotating-caliper sweep loop of the intersection algorithm.  State:
current vertex pointers, `edge_angle`, accepted bridges so far, and the
`edge_flag` (false until the first accepted bridge sets it). -/
def _rc_sweep (ε : ℚ) (p1 p2 : Poly2) :
    ℕ → ℕ → ℕ → ℚ → List (ℕ × ℕ) → Bool → SweepOut
  | 0, _, _, _, _, _ => .fail
  | fuel + 1, pidx1, pidx2, edge_angle, bridges, edge_flag =>
    let pidx1_next := _mod_inc pidx1 p1.nvertices
    let pidx2_next := _mod_inc pidx2 p2.nvertices
    let angle1 := _slope_pp ε (vget p1 pidx1) (vget p1 pidx1_next)
    let angle2 := _slope_pp ε (vget p2 pidx2) (vget p2 pidx2_next)
    if edge_angle < angle1 ∧ (angle1 < angle2 ∨ angle2 < edge_angle) then
      -- choose p1 edge as part of co-podal pair
      match _check_valid_bridge ε p1 p2 pidx1_next pidx2 with
      | .degenerate => .fail
      | .invalid => _rc_sweep ε p1 p2 fuel pidx1_next pidx2 angle1 bridges edge_flag
      | .valid reverse =>
        match (if reverse then _find_intersection_under_bridge ε p1 p2 pidx1_next pidx2
               else (_find_intersection_under_bridge ε p2 p1 pidx2 pidx1_next).map
                 (fun x => (x.2, x.1))) with
        | none => .empty
        | some xpair =>
          let edge_flag' := if bridges.isEmpty then !reverse else edge_flag
          _rc_sweep ε p1 p2 fuel pidx1_next pidx2 angle1 (bridges ++ [xpair]) edge_flag'
    else if edge_angle < angle2 ∧ (angle2 < angle1 ∨ angle1 < edge_angle) then
      -- choose p2 edge as part of co-podal pair
      match _check_valid_bridge ε p1 p2 pidx1 pidx2_next with
      | .degenerate => .fail
      | .invalid => _rc_sweep ε p1 p2 fuel pidx1 pidx2_next angle2 bridges edge_flag
      | .valid reverse =>
        match (if reverse then _find_intersection_under_bridge ε p1 p2 pidx1 pidx2_next
               else (_find_intersection_under_bridge ε p2 p1 pidx2_next pidx1).map
                 (fun x => (x.2, x.1))) with
        | none => .empty
        | some xpair =>
          let edge_flag' := if bridges.isEmpty then !reverse else edge_flag
          _rc_sweep ε p1 p2 fuel pidx1 pidx2_next angle2 (bridges ++ [xpair]) edge_flag'
    else .done bridges edge_flag

/-- Append the vertices (and flags) of the active polygon between two
consecutive crossings: the inner `for j` loops of the stitching phase
(geometry.hpp lines 805-815 / 826-836).  `bit` is 1 for p1, 0 for p2. -/
def _rc_span (p : Poly2) (bit xi xnext : ℕ) : List (Point2 × ℕ) :=
  let idx_next := if xnext ≥ xi then xnext else xnext + p.nvertices
  (List.range' (xi + 1) (idx_next - xi)).map fun j =>
    let jmod := if j < p.nvertices then j else j - p.nvertices
    (vget p jmod, 2 * jmod + bit)

/-- The stitching phase of the rotating-caliper intersection (geometry.hpp
lines 782-841): for each accepted crossing, the synthesized line-line
intersection point, then the boundary vertices of the active polygon up to
the next crossing; `edge_flag` alternates. -/
def _rc_build (p1 p2 : Poly2) (bridges : List (ℕ × ℕ)) (ef0 : Bool) :
    List (Point2 × ℕ) :=
  let nx := bridges.length
  let sent := bridges ++ bridges.take 1  -- x1indices[nx] = x1indices[0] sentinel
  (List.range nx).foldl
    (fun acc i =>
      let xi := sent.getD i (0, 0)
      let xnext := sent.getD (i + 1) (0, 0)
      let ef := if i % 2 = 0 then ef0 else !ef0
      let l1 := line2_from_pp (vget p1 xi.1) (vget p1 (_mod_inc xi.1 p1.nvertices))
      let l2 := line2_from_pp (vget p2 xi.2) (vget p2 (_mod_inc xi.2 p2.nvertices))
      let xpt := (intersectLL l1 l2, if ef then 2 * xi.1 + 1 else 2 * xi.2)
      acc ++ [xpt] ++ (if ef then _rc_span p1 1 xi.1 xnext.1 else _rc_span p2 0 xi.2 xnext.2))
    []

/-- `intersect(AlgorithmT::RotatingCaliper, p1, p2, xflags)` (geometry.hpp
lines 686-842).  Result: the intersection polygon and the flag buffer
contents, or `none` for the assert/fuel failure paths. -/
def intersectRC (ε : ℚ) (fuel : ℕ) (p1 p2 : Poly2) : Option (Poly2 × List ℕ) :=
  let pidx1 := (_find_extreme p1).1
  let pidx2 := (_find_extreme p2).1
  match _rc_sweep ε p1 p2 fuel pidx1 pidx2 negPi [] false with
  | .fail => none
  | .empty => some (⟨[]⟩, [])
  | .done [] _ =>
    -- containment: no bridge was found after a full sweep
    if area p1 > area p2 then
      some (p2, (List.range p2.nvertices).map fun i => 2 * i)
    else
      some (p1, (List.range p1.nvertices).map fun i => 2 * i + 1)
  | .done bridges ef =>
    let out := _rc_build p1 p2 bridges ef
    some (⟨out.map Prod.fst⟩, out.map Prod.snd)

/-- One clipping pass of `intersect(AlgorithmT::SutherlandHodgeman, ...)`
(geometry.hpp lines 860-894): clip polygon `pcut` (with flags `fcut`)
against the directed edge `j` of `p2`. -/
def _sh_clip (ε : ℚ) (hyp : ℚ → ℚ → ℚ) (p2 : Poly2) (j : ℕ)
    (cur : List (Point2 × ℕ)) : List (Point2 × ℕ) :=
  let jnext := _mod_inc j p2.nvertices
  let edge := line2_from_pp (vget p2 j) (vget p2 jnext)
  let pcut : Poly2 := ⟨cur.map Prod.fst⟩
  let signs := fun i => distance_lp hyp edge (vget pcut i)
  (List.range pcut.nvertices).foldl
    (fun acc i =>
      let acc1 := if signs i < ε then acc ++ [(vget pcut i, (cur.getD i (0, 0)).2)] else acc
      let inext := _mod_inc i pcut.nvertices
      if signs i * signs inext < -ε then
        let cut := line2_from_pp (vget pcut i) (vget pcut inext)
        acc1 ++ [(intersectLL edge cut,
          if signs i < -ε then 2 * j else (cur.getD i (0, 0)).2)]
      else acc1)
    []

/-- `intersect(AlgorithmT::SutherlandHodgeman, p1, p2, xflags)` (geometry.hpp
lines 846-902): clip `p1` successively against every edge of `p2`. -/
def intersectSH (ε : ℚ) (hyp : ℚ → ℚ → ℚ) (p1 p2 : Poly2) : Poly2 × List ℕ :=
  let start := p1.vertices.enum.map fun x => (x.2, 2 * x.1 + 1)
  let out := (List.range p2.nvertices).foldl (fun cur j => _sh_clip ε hyp p2 j cur) start
  (⟨out.map Prod.fst⟩, out.map Prod.snd)

/-- The default `intersect(p1, p2, xflags)` (geometry.hpp lines 905-912)
forwards to the rotating-caliper algorithm. -/
def intersectP (ε : ℚ) (fuel : ℕ) (p1 p2 : Poly2) : Option (Poly2 × List ℕ) :=
  intersectRC ε fuel p1 p2

/-! ## dimension / center / centroid (geometry.hpp lines 934-1015) -/

/-- The inner caliper advance of `dimension` (geometry.hpp lines 957-962):
advance `v` while the next vertex is at least as far from edge `(u, unext)`. -/
def _dim_advance (p : Poly2) (u unext : ℕ) : ℕ → ℕ → ℕ → ℕ × ℕ
  | 0, v, vnext => (v, vnext)
  | fuel + 1, v, vnext =>
    if _cross (vget p u) (vget p unext) (vget p v) ≤
       _cross (vget p u) (vget p unext) (vget p vnext) then
      _dim_advance p u unext fuel vnext (_mod_inc vnext p.nvertices)
    else (v, vnext)

/-- `dimension(Poly2, flag1, flag2)` (geometry.hpp lines 941-982): polygon
diameter by rotating calipers, with the two achieving vertex indices.
The C version leaves `flag1`/`flag2` uninitialized when `nvertices ≤ 1`
or when no distance exceeds 0; the embedding reports `(0, 0)` there. -/
def dimension3 (hyp : ℚ → ℚ → ℚ) (p : Poly2) : ℚ × ℕ × ℕ :=
  if p.nvertices ≤ 1 then (0, 0, 0)
  else if p.nvertices = 2 then (distance_pp hyp (vget p 0) (vget p 1), 0, 1)
  else
    let n := p.nvertices
    let step := fun (acc : ℕ × ℕ × ℚ × ℕ × ℕ) (u : ℕ) =>
      let (v, _, dmax, f1, f2) := acc
      let unext := _mod_inc u n
      let (v', vnext') := _dim_advance p u unext (2 * n + 2) v (_mod_inc v n)
      let d1 := distance_pp hyp (vget p u) (vget p v')
      let (dmax1, f11, f21) := if d1 > dmax then (d1, u, v') else (dmax, f1, f2)
      let d2 := distance_pp hyp (vget p unext) (vget p v')
      let (dmax2, f12, f22) := if d2 > dmax1 then (d2, unext, v') else (dmax1, f11, f21)
      (v', vnext', dmax2, f12, f22)
    let r := (List.range n).foldl step (1, 2, 0, 0, 0)
    (r.2.2.1, r.2.2.2.1, r.2.2.2.2)

/-- `dimension(Poly2)` without the index outputs. -/
def dimension1 (hyp : ℚ → ℚ → ℚ) (p : Poly2) : ℚ := (dimension3 hyp p).1

/-- `center(AABox2)`. -/
def centerBox (a : AABox2) : Point2 := ⟨(a.max_x + a.min_x) / 2, (a.max_y + a.min_y) / 2⟩

/-- `center(Poly2)`. -/
def center (p : Poly2) : Point2 := centerBox (aabox2_from_poly2 p)

/-- `centroid(AABox2)` = `center`. -/
def centroidBox (a : AABox2) : Point2 := centerBox a

/-- `centroid(Poly2)` (geometry.hpp lines 1006-1015): vertex average. -/
def centroid (p : Poly2) : Point2 :=
  let s := p.vertices.foldl (fun acc v => acc + v) 0
  ⟨s.x / p.nvertices, s.y / p.nvertices⟩

/-! ## merge (geometry.hpp lines 1021-1123) -/

/-- The rotating sweep loop of `merge` (geometry.hpp lines 1079-1120),
carrying the output vertex/flag list.  `none` = degenerate bridge assert
or fuel exhaustion. -/
def _merge_sweep (ε : ℚ) (p1 p2 : Poly2) :
    ℕ → ℕ → ℕ → ℚ → Bool → List (Point2 × ℕ) → Option (List (Point2 × ℕ))
  | 0, _, _, _, _, _ => none
  | fuel + 1, pidx1, pidx2, edge_angle, edge_flag, out =>
    let pidx1_next := _mod_inc pidx1 p1.nvertices
    let pidx2_next := _mod_inc pidx2 p2.nvertices
    let angle1 := _slope_pp ε (vget p1 pidx1) (vget p1 pidx1_next)
    let angle2 := _slope_pp ε (vget p2 pidx2) (vget p2 pidx2_next)
    if edge_angle < angle1 ∧ (angle1 < angle2 ∨ angle2 < edge_angle) then
      let out1 := if edge_flag then out ++ [(vget p1 pidx1, 2 * pidx1 + 1)] else out
      match _check_valid_bridge ε p1 p2 pidx1_next pidx2 with
      | .degenerate => none
      | .valid _ =>
        let out2 := if edge_flag then out1 ++ [(vget p1 pidx1_next, 2 * pidx1_next + 1)]
                    else out1 ++ [(vget p2 pidx2, 2 * pidx2)]
        _merge_sweep ε p1 p2 fuel pidx1_next pidx2 angle1 (!edge_flag) out2
      | .invalid => _merge_sweep ε p1 p2 fuel pidx1_next pidx2 angle1 edge_flag out1
    else if edge_angle < angle2 ∧ (angle2 < angle1 ∨ angle1 < edge_angle) then
      let out1 := if edge_flag then out else out ++ [(vget p2 pidx2, 2 * pidx2)]
      match _check_valid_bridge ε p1 p2 pidx1 pidx2_next with
      | .degenerate => none
      | .valid _ =>
        let out2 := if edge_flag then out1 ++ [(vget p1 pidx1, 2 * pidx1 + 1)]
                    else out1 ++ [(vget p2 pidx2_next, 2 * pidx2_next)]
        _merge_sweep ε p1 p2 fuel pidx1 pidx2_next angle2 (!edge_flag) out2
      | .invalid => _merge_sweep ε p1 p2 fuel pidx1 pidx2_next angle2 edge_flag out1
    else some out

/-- `merge(p1, p2, mflags)` (geometry.hpp lines 1021-1123): convex hull of
two convex polygons by rotating calipers, with provenance flags. -/
def merge (ε : ℚ) (fuel : ℕ) (p1 p2 : Poly2) : Option (Poly2 × List ℕ) :=
  let (pidx1, y_max1) := _find_extreme p1
  let (pidx2, y_max2) := _find_extreme p2
  let edge_flag := decide (y_max1 > y_max2)
  let start :=
    match _check_valid_bridge ε p1 p2 pidx1 pidx2 with
    | .degenerate => none
    | .invalid => some edge_flag
    | .valid _ =>
      -- starting point already forms a bridge: find correct edge to start
      if edge_flag then
        let pidx1_next := _mod_inc pidx1 p1.nvertices
        let angle_br := _slope_pp ε (vget p1 pidx1) (vget p2 pidx2)
        let angle1 := _slope_pp ε (vget p1 pidx1) (vget p1 pidx1_next)
        some (if angle_br < angle1 then false else edge_flag)
      else
        let pidx2_next := _mod_inc pidx2 p2.nvertices
        let angle_br := _slope_pp ε (vget p2 pidx2) (vget p1 pidx1)
        let angle2 := _slope_pp ε (vget p2 pidx2) (vget p2 pidx2_next)
        some (if angle_br < angle2 then true else edge_flag)
  match start with
  | none => none
  | some ef0 =>
    match _merge_sweep ε p1 p2 fuel pidx1 pidx2 negPi ef0 [] with
    | none => none
    | some out => some (⟨out.map Prod.fst⟩, out.map Prod.snd)

/-! ## Composite overlap metrics (geometry.hpp lines 1206-1291) -/

/-- `iou(AABox2, AABox2)`. -/
def iouBox (a1 a2 : AABox2) : ℚ :=
  let area_i := areaBox (intersectBB a1 a2)
  let area_u := areaBox a1 + areaBox a2 - area_i
  area_i / area_u

/-- `iou(Poly2, Poly2)` (geometry.hpp lines 1215-1224); `none` when the
intersection algorithm hits its failure path. -/
def iou (ε : ℚ) (fuel : ℕ) (p1 p2 : Poly2) : Option ℚ :=
  (intersectP ε fuel p1 p2).map fun pi =>
    let area_i := area pi.1
    let area_u := area p1 + area p2 - area_i
    area_i / area_u

/-- `giou(Poly2, Poly2)` (geometry.hpp lines 1241-1255). -/
def giou (ε : ℚ) (fuel : ℕ) (p1 p2 : Poly2) : Option ℚ := do
  let pi ← intersectP ε fuel p1 p2
  let pm ← merge ε fuel p1 p2
  let area_i := area pi.1
  let area_m := area pm.1
  let area_u := area p1 + area p2 - area_i
  pure (area_i / area_u + area_u / area_m - 1)

/-- `diou(Poly2, Poly2, nx, dflag1, dflag2, xflags)` (geometry.hpp lines
1272-1285): IoU minus squared centroid distance over squared merged-hull
diameter.  The 8-byte `mflags` buffer is embedded as the flag list
returned by `merge` (see the C10 analysis). -/
def diou (ε : ℚ) (hyp : ℚ → ℚ → ℚ) (fuel : ℕ) (p1 p2 : Poly2) : Option ℚ := do
  let piou ← iou ε fuel p1 p2
  let cd := distance_pp hyp (centroid p1) (centroid p2)
  let pm ← merge ε fuel p1 p2
  let maxd := (dimension3 hyp pm.1).1
  pure (piou - cd * cd / (maxd * maxd))

/-! ## Area lemmas (towards claims C3 and C4) -/

/-- Cyclic invariance of the triangle cross product. -/
theorem _cross_rotate (a b c : Point2) : _cross a b c = _cross c a b := by
  unfold _cross; ring

/-- Last element of a vertex list (the source's `vertices[nvertices-1]`). -/
def lastP : List Point2 → Point2
  | [] => 0
  | [a] => a
  | _ :: b :: rest => lastP (b :: rest)

theorem lastP_cons_cons (a b : Point2) (l : List Point2) :
    lastP (a :: b :: l) = lastP (b :: l) := rfl

theorem vget_last (p : Poly2) : vget p (p.nvertices - 1) = lastP p.vertices := by
  show p.vertices.getD (p.vertices.length - 1) 0 = lastP p.vertices
  generalize p.vertices = l
  induction l with
  | nil => rfl
  | cons a l ih =>
    cases l with
    | nil => rfl
    | cons b t =>
      rw [lastP_cons_cons, ← ih]
      simp [List.length_cons]

/-- Triangle-fan decomposition sum anchored at `p0`. -/
def fanSum (p0 : Point2) : List Point2 → ℚ
  | a :: b :: rest => _cross p0 a b + fanSum p0 (b :: rest)
  | _ => 0

/-- The closed shoelace sum of `p0 :: l` equals the fan sum anchored at `p0`. -/
theorem adjSum_fan (p0 : Point2) (l : List Point2) :
    adjSum (p0 :: l) + _det (lastP (p0 :: l)) p0 = fanSum p0 l := by
  induction l with
  | nil => simp [adjSum, lastP, fanSum, _det]
  | cons a l ih =>
    cases l with
    | nil =>
      show _det p0 a + 0 + _det a p0 = 0
      unfold _det; ring
    | cons b t =>
      have h1 : adjSum (p0 :: a :: b :: t) = _det p0 a + (_det a b + adjSum (b :: t)) := by
        simp [adjSum]
      have h2 : adjSum (p0 :: b :: t) = _det p0 b + adjSum (b :: t) := by
        simp [adjSum]
      have h3 : lastP (p0 :: a :: b :: t) = lastP (p0 :: b :: t) := by
        simp [lastP_cons_cons]
      rw [fanSum, ← ih, h1, h3, h2]
      unfold _cross _det; ring

/-- Positivity of the fan sum when every consecutive fan triangle is
positively oriented. -/
theorem fanSum_pos (p0 : Point2) :
    ∀ l : List Point2, 2 ≤ l.length →
      (∀ k, k + 1 < l.length → 0 < _cross p0 (l.getD k 0) (l.getD (k + 1) 0)) →
      0 < fanSum p0 l := by
  intro l
  induction l with
  | nil => intro hlen _; simp at hlen
  | cons a l ih =>
    intro hlen hpos
    cases l with
    | nil => simp at hlen
    | cons b t =>
      have hab : 0 < _cross p0 a b := by
        have := hpos 0 (by simp)
        simpa using this
      cases t with
      | nil => simpa [fanSum] using hab
      | cons c t' =>
        have htail : 0 < fanSum p0 (b :: c :: t') := by
          apply ih (by simp)
          intro k hk
          have := hpos (k + 1) (by simp at hk ⊢; omega)
          simpa using this
        have hsplit : fanSum p0 (a :: b :: c :: t')
            = _cross p0 a b + fanSum p0 (b :: c :: t') := rfl
        rw [hsplit]
        positivity

/-- `adjSum` computes `Σ_{i<len-1} det(v_i, v_{i+1})`. -/
theorem adjSum_eq_sum (l : List Point2) :
    adjSum l = ∑ i ∈ Finset.range (l.length - 1), _det (l.getD i 0) (l.getD (i + 1) 0) := by
  induction l with
  | nil => simp [adjSum]
  | cons a l ih =>
    cases l with
    | nil => simp [adjSum]
    | cons b t =>
      have hlen : (a :: b :: t).length - 1 = t.length + 1 := by simp
      rw [hlen, Finset.sum_range_succ']
      have h1 : ∀ i ∈ Finset.range t.length,
          _det ((a :: b :: t).getD (i + 1) 0) ((a :: b :: t).getD (i + 1 + 1) 0)
            = _det ((b :: t).getD i 0) ((b :: t).getD (i + 1) 0) := by
        intro i _; simp
      rw [Finset.sum_congr rfl h1]
      have h2 : (b :: t).length - 1 = t.length := by simp
      show adjSum (a :: b :: t) = _ + _
      rw [show adjSum (a :: b :: t) = _det a b + adjSum (b :: t) from rfl, ih, h2]
      simp [add_comm]

/-- For `n ≥ 3` the `area` loop computes exactly the closed shoelace sum,
halved (claim C4's "signed shoelace sum of its vertices divided by 2"). -/
theorem area_eq_shoelace (p : Poly2) (h : 3 ≤ p.nvertices) :
    area p = shoelaceSum p / 2 := by
  have hn : ¬ p.nvertices ≤ 2 := by omega
  obtain ⟨m, hm⟩ : ∃ m, p.nvertices = m + 1 := ⟨p.nvertices - 1, by omega⟩
  rw [area, if_neg hn, shoelaceSum, hm, Finset.sum_range_succ]
  have hlast : (m + 1) % (m + 1) = 0 := Nat.mod_self _
  have hmid : ∀ i ∈ Finset.range m,
      _det (vget p i) (vget p ((i + 1) % (m + 1))) = _det (vget p i) (vget p (i + 1)) := by
    intro i hi
    simp only [Finset.mem_range] at hi
    rw [Nat.mod_eq_of_lt (by omega)]
  rw [hlast, Finset.sum_congr rfl hmid]
  have hadj := adjSum_eq_sum p.vertices
  have hlen : p.vertices.length - 1 = m := by
    have : p.vertices.length = p.nvertices := rfl
    omega
  rw [hlen] at hadj
  have hm1 : m + 1 - 1 = m := by omega
  rw [hm1, hadj]
  simp only [vget_def]
  ring

/-- A polygon satisfying the CCW convex contract has positive area
(shared helper for claims C3 and C4). -/
theorem area_pos_of_ccw (p : Poly2) (h : ccwConvex p) : 0 < area p := by
  obtain ⟨hn, hcc⟩ := h
  have hnle : ¬ p.nvertices ≤ 2 := by omega
  rw [area, if_neg hnle]
  rcases hv : p.vertices with _ | ⟨p0, l⟩
  · exfalso
    have : p.nvertices = 0 := by simp [Poly2.nvertices, hv]
    omega
  · have hlen : l.length + 1 = p.nvertices := by simp [Poly2.nvertices, hv]
    have hvg0 : vget p 0 = p0 := by simp [hv]
    have hfan : 0 < fanSum p0 l := by
      apply fanSum_pos p0 l (by omega)
      intro k hk
      have hk2 : k + 2 < p.nvertices := by omega
      have hinc : _mod_inc (k + 1) p.nvertices = k + 2 := by
        unfold _mod_inc; rw [if_pos (by omega)]
      have happ := hcc (k + 1) (by omega) 0 (by omega) (by omega)
        (by rw [hinc]; omega)
      rw [hinc] at happ
      have hget1 : l.getD k 0 = vget p (k + 1) := by simp [hv]
      have hget2 : l.getD (k + 1) 0 = vget p (k + 2) := by simp [hv]
      rw [hget1, hget2, ← hvg0]
      rw [_cross_rotate, _cross_rotate]
      exact happ
    have harea : _det (vget p (p.nvertices - 1)) (vget p 0) + adjSum (p0 :: l)
        = fanSum p0 l := by
      have hvlast : vget p (p.nvertices - 1) = lastP (p0 :: l) := by
        rw [vget_last, hv]
      rw [hvg0, hvlast, ← adjSum_fan p0 l]
      ring
    rw [harea]
    positivity

/-! ## The containment branch of the rotating-caliper intersection (C2, C3) -/

theorem getD_map_range (f : ℕ → ℕ) (n i : ℕ) (h : i < n) :
    ((List.range n).map f).getD i 0 = f i := by
  rw [List.getD_eq_getElem?_getD, List.getElem?_map, List.getElem?_range h]
  rfl

/-- Claim C2 helper: what `intersectRC` returns when the sweep accepted no
bridge and did not return early (geometry.hpp lines 758-777). -/
theorem intersectRC_containment (ε : ℚ) (fuel : ℕ) (p1 p2 : Poly2) (ef : Bool)
    (hsw : _rc_sweep ε p1 p2 fuel (_find_extreme p1).1 (_find_extreme p2).1 negPi [] false
      = .done [] ef) :
    intersectRC ε fuel p1 p2 =
      some (if area p1 > area p2
            then (p2, (List.range p2.nvertices).map fun i => 2 * i)
            else (p1, (List.range p1.nvertices).map fun i => 2 * i + 1)) := by
  rw [intersectRC, hsw]
  split <;> [skip; skip; skip; simp_all] <;> simp_all <;> split <;> simp

/-- One step of the sweep breaks immediately whenever the two current edge
angles are the very same expression (in particular on identical operands). -/
theorem _rc_sweep_break (ε : ℚ) (p : Poly2) (fuel k : ℕ) (ea : ℚ)
    (br : List (ℕ × ℕ)) (ef : Bool) :
    _rc_sweep ε p p (fuel + 1) k k ea br ef = .done br ef := by
  rw [_rc_sweep]
  have hangle : ∀ a : ℚ, ¬ (ea < a ∧ (a < a ∨ a < ea)) := by
    rintro a ⟨h1, h2 | h3⟩
    · exact lt_irrefl _ h2
    · exact absurd h1 (not_lt.mpr h3.le)
  rw [if_neg (hangle _), if_neg (hangle _)]

/-! ## Claim theorems C2, C3, C4 -/

/-- **C2.** If the rotating-caliper sweep over `p1` and `p2` accepts zero
bridges during the full sweep and does not return early, `intersect`
returns the operand with the smaller area verbatim, and provenance entry
`i` encodes vertex index `i` of that operand in the high bits with low bit
1 exactly when the returned operand is `p1`. -/
theorem claim_C2_containment_verbatim (ε : ℚ) (fuel : ℕ) (p1 p2 : Poly2) (ef : Bool)
    (hsw : _rc_sweep ε p1 p2 fuel (_find_extreme p1).1 (_find_extreme p2).1 negPi [] false
      = .done [] ef) :
    ∃ q fl, intersectRC ε fuel p1 p2 = some (q, fl) ∧
      area q = min (area p1) (area p2) ∧
      ((area p2 < area p1 ∧ q = p2) ∨ (area p1 ≤ area p2 ∧ q = p1)) ∧
      fl.length = q.nvertices ∧
      ∀ i < q.nvertices, fl.getD i 0 = 2 * i + (if area p2 < area p1 then 0 else 1) := by
  have h := intersectRC_containment ε fuel p1 p2 ef hsw
  by_cases hA : area p2 < area p1
  · refine ⟨p2, (List.range p2.nvertices).map (fun i => 2 * i), ?_, ?_, ?_, ?_, ?_⟩
    · rw [h, if_pos hA]
    · exact (min_eq_right hA.le).symm
    · exact Or.inl ⟨hA, rfl⟩
    · simp [Poly2.nvertices]
    · intro i hi
      rw [getD_map_range _ _ _ hi, if_pos hA]
      omega
  · refine ⟨p1, (List.range p1.nvertices).map (fun i => 2 * i + 1), ?_, ?_, ?_, ?_, ?_⟩
    · rw [h, if_neg hA]
    · exact (min_eq_left (not_lt.mp hA)).symm
    · exact Or.inr ⟨not_lt.mp hA, rfl⟩
    · simp [Poly2.nvertices]
    · intro i hi
      rw [getD_map_range _ _ _ hi, if_neg hA]

/-- **C2 witness.**  Two identical triangles: the sweep breaks at once with
zero bridges, and the smaller-area operand (here `p1`) is returned with
odd provenance flags. -/
theorem claim_C2_containment_verbatim_witness :
    ∃ q fl, intersectRC 0 1 (Poly2.mk [⟨0,0⟩, ⟨1,0⟩, ⟨0,1⟩]) (Poly2.mk [⟨0,0⟩, ⟨1,0⟩, ⟨0,1⟩])
        = some (q, fl) ∧
      area q = min (area (Poly2.mk [⟨0,0⟩, ⟨1,0⟩, ⟨0,1⟩])) (area (Poly2.mk [⟨0,0⟩, ⟨1,0⟩, ⟨0,1⟩])) ∧
      ((area (Poly2.mk [⟨0,0⟩, ⟨1,0⟩, ⟨0,1⟩]) < area (Poly2.mk [⟨0,0⟩, ⟨1,0⟩, ⟨0,1⟩]) ∧
          q = Poly2.mk [⟨0,0⟩, ⟨1,0⟩, ⟨0,1⟩]) ∨
        (area (Poly2.mk [⟨0,0⟩, ⟨1,0⟩, ⟨0,1⟩]) ≤ area (Poly2.mk [⟨0,0⟩, ⟨1,0⟩, ⟨0,1⟩]) ∧
          q = Poly2.mk [⟨0,0⟩, ⟨1,0⟩, ⟨0,1⟩])) ∧
      fl.length = q.nvertices ∧
      ∀ i < q.nvertices, fl.getD i 0 = 2 * i +
        (if area (Poly2.mk [⟨0,0⟩, ⟨1,0⟩, ⟨0,1⟩]) < area (Poly2.mk [⟨0,0⟩, ⟨1,0⟩, ⟨0,1⟩])
         then 0 else 1) :=
  claim_C2_containment_verbatim 0 1 _ _ false (_rc_sweep_break 0 _ 0 _ negPi [] false)

/-- **C3.** `iou(A, A) = 1` (exactly, in exact arithmetic) for every
polygon satisfying the CCW convex contract: on identical operands the two
current edge angles coincide at the first sweep step, the sweep breaks
with zero bridges, the containment branch returns `A` verbatim, and
`area(A) / (2·area(A) - area(A)) = 1` because `area(A) > 0`. -/
theorem claim_C3_iou_self (ε : ℚ) (fuel : ℕ) (A : Poly2) (h : ccwConvex A) :
    iou ε (fuel + 1) A A = some 1 := by
  have hsw := _rc_sweep_break ε A fuel (_find_extreme A).1 negPi [] false
  have hrc := intersectRC_containment ε (fuel + 1) A A false hsw
  rw [if_neg (lt_irrefl (area A))] at hrc
  rw [iou, intersectP, hrc]
  have hpos := area_pos_of_ccw A h
  show some (area A / (area A + area A - area A)) = some 1
  have harea : area A + area A - area A = area A := by ring
  rw [harea, div_self hpos.ne.symm]

/-- **C3 witness.** -/
theorem claim_C3_iou_self_witness :
    iou 0 1 (Poly2.mk [⟨0,0⟩, ⟨1,0⟩, ⟨0,1⟩]) (Poly2.mk [⟨0,0⟩, ⟨1,0⟩, ⟨0,1⟩]) = some 1 :=
  claim_C3_iou_self 0 0 _ (by with_unfolding_all decide)

/-- **C4.** `area` returns 0 for fewer than 3 vertices, otherwise the
signed shoelace sum over the vertices divided by 2, and the result is
positive for every polygon satisfying the CCW convex invariant. -/
theorem claim_C4_area (p : Poly2) :
    (p.nvertices < 3 → area p = 0) ∧
    (3 ≤ p.nvertices → area p = shoelaceSum p / 2) ∧
    (ccwConvex p → 0 < area p) :=
  ⟨fun h => by rw [area, if_pos (by omega)], area_eq_shoelace p, area_pos_of_ccw p⟩

/-- **C4 witness.** -/
theorem claim_C4_area_witness :
    area (Poly2.mk [⟨0,0⟩, ⟨1,0⟩, ⟨0,1⟩]) = shoelaceSum (Poly2.mk [⟨0,0⟩, ⟨1,0⟩, ⟨0,1⟩]) / 2 ∧
    0 < area (Poly2.mk [⟨0,0⟩, ⟨1,0⟩, ⟨0,1⟩]) ∧
    area (Poly2.mk [⟨0,0⟩]) = 0 :=
  ⟨(claim_C4_area _).2.1 (by with_unfolding_all decide),
    (claim_C4_area _).2.2 (by with_unfolding_all decide),
    (claim_C4_area _).1 (by with_unfolding_all decide)⟩

/-! ## Claims C9 (box round-trip), C10 (diou merge-flag buffer), C7 (diou formula) -/

/-- **C9.** Converting an axis-aligned box satisfying its invariant to its
4-vertex polygon and back recovers the box exactly. -/
theorem AABox2.ext4 {a b : AABox2} (h1 : a.min_x = b.min_x) (h2 : a.max_x = b.max_x)
    (h3 : a.min_y = b.min_y) (h4 : a.max_y = b.max_y) : a = b := by
  cases a; cases b; simp_all

theorem claim_C9_box_roundtrip (a : AABox2) (hx : a.min_x ≤ a.max_x) (hy : a.min_y ≤ a.max_y) :
    aabox2_from_poly2 (poly2_from_aabox2 a) = a := by
  obtain ⟨mnx, mxx, mny, mxy⟩ := a
  simp only at hx hy
  apply AABox2.ext4 <;>
    simp [poly2_from_aabox2, aabox2_from_poly2, vget, _min, _max] <;>
    split_ifs <;> intros <;> first | rfl | linarith

/-- **C9 witness.** -/
theorem claim_C9_box_roundtrip_witness :
    aabox2_from_poly2 (poly2_from_aabox2 ⟨0, 2, 1, 3⟩) = ⟨0, 2, 1, 3⟩ :=
  claim_C9_box_roundtrip ⟨0, 2, 1, 3⟩ (by norm_num) (by norm_num)

/-- `Numeric<double>::eps()` = 6e-15 (geometry.hpp line 112). -/
def epsDouble : ℚ := 6 / 10 ^ 15

/-- First heptagon operand for the C10 failing input. -/
def hept1 : Poly2 := ⟨[⟨0,0⟩, ⟨3,-1⟩, ⟨5,0⟩, ⟨6,2⟩, ⟨5,4⟩, ⟨2,5⟩, ⟨-1,3⟩]⟩

/-- Second heptagon operand for the C10 failing input. -/
def hept2 : Poly2 := ⟨[⟨20,0⟩, ⟨25,-1⟩, ⟨27,1⟩, ⟨28,4⟩, ⟨26,6⟩, ⟨22,7⟩, ⟨19,2⟩]⟩

/-- **C10 (refuted: code bug).**  `diou` hands `merge` a stack buffer
`uint8_t mflags[8]` (geometry.hpp line 1280), and `merge` performs one
flag write per merged-hull vertex, at buffer indices `0, 1, ..., nm-1`
(the flag-list positions in this embedding).  For these two
well-conditioned convex CCW heptagons — legal inputs to
`diou<scalar_t, 8, 8>` — the merged hull has 9 vertices, so the 9th write
lands at buffer index 8, out of bounds of the 8-byte array.  The claim
that every access stays below index 8 for any capacities is false. -/
theorem claim_C10_mflags_overflow :
    ccwConvex hept1 ∧ ccwConvex hept2 ∧
    (merge epsDouble 100 hept1 hept2).map (fun r => r.2.length) = some 9 := by
  with_unfolding_all decide

/-- The squared Euclidean distance, as the spec's words "squared Euclidean
distance between centroid(P1) and centroid(P2)" denote it. -/
def sqEuclid (p q : Point2) : ℚ := (p.x - q.x) ^ 2 + (p.y - q.y) ^ 2

/-- The spec's formula for `diou`:
`iou − centroidDistance² / diameter(merge)²` (spec §4.4), written from the
spec's words for comparison with the implementation. -/
def diou_specform (ε : ℚ) (hyp : ℚ → ℚ → ℚ) (fuel : ℕ) (p1 p2 : Poly2) : Option ℚ := do
  let v ← iou ε fuel p1 p2
  let pm ← merge ε fuel p1 p2
  pure (v - sqEuclid (centroid p1) (centroid p2) / (dimension1 hyp pm.1) ^ 2)

/-- **C7.** `diou` returns `iou(P1,P2)` minus the squared Euclidean
distance between the centroids divided by the squared diameter
(`dimension`) of `merge(P1,P2)` — given that the `hypot` parameter really
computes the Euclidean norm at the centroid difference. -/
theorem claim_C7_diou_formula (ε : ℚ) (hyp : ℚ → ℚ → ℚ) (fuel : ℕ) (p1 p2 : Poly2)
    (hh : hyp ((centroid p1).x - (centroid p2).x) ((centroid p1).y - (centroid p2).y) ^ 2
      = sqEuclid (centroid p1) (centroid p2)) :
    diou ε hyp fuel p1 p2 = diou_specform ε hyp fuel p1 p2 := by
  rw [diou, diou_specform]
  cases hiou : iou ε fuel p1 p2 with
  | none => rfl
  | some v =>
    cases hm : merge ε fuel p1 p2 with
    | none => rfl
    | some pm =>
      simp only [Option.bind_eq_bind, Option.some_bind]
      congr 1
      rw [distance_pp, dimension1, ← hh]
      ring

/-- **C7 witness.** -/
theorem claim_C7_diou_formula_witness :
    diou 0 (fun _ _ => 0) 5 (Poly2.mk [⟨0,0⟩, ⟨1,0⟩, ⟨0,1⟩]) (Poly2.mk [⟨0,0⟩, ⟨1,0⟩, ⟨0,1⟩])
      = diou_specform 0 (fun _ _ => 0) 5 (Poly2.mk [⟨0,0⟩, ⟨1,0⟩, ⟨0,1⟩])
          (Poly2.mk [⟨0,0⟩, ⟨1,0⟩, ⟨0,1⟩]) :=
  claim_C7_diou_formula 0 _ 5 _ _ (by with_unfolding_all decide)

/-! ## Gradient accumulators (geometry_grad.hpp)

A gradient polygon (`Poly2` used as accumulator, zero-initialised by
`.zero()`) is embedded as `PolyAcc`: an explicit `nvertices` plus the
vertex buffer viewed as a total function (the C array of statically
unknown capacity).  A C line `grad.vertices[i].x += e` becomes `addX i e`;
aliased targets (two flag-selected references into the same buffer) are
therefore handled exactly as the sequential `+=`s of the source. -/

structure PolyAcc where
  nvertices : ℕ := 0
  v : ℕ → Point2 := fun _ => 0

/-- The all-zero accumulator (what `.zero()` produces). -/
def pzero : PolyAcc := {}

/-- `vertices[i] += dp`. -/
def PolyAcc.addPt (a : PolyAcc) (i : ℕ) (dp : Point2) : PolyAcc :=
  { a with v := fun j => if j = i then a.v j + dp else a.v j }

/-- `vertices[i].x += q`. -/
def PolyAcc.addX (a : PolyAcc) (i : ℕ) (q : ℚ) : PolyAcc := a.addPt i ⟨q, 0⟩

/-- `vertices[i].y += q`. -/
def PolyAcc.addY (a : PolyAcc) (i : ℕ) (q : ℚ) : PolyAcc := a.addPt i ⟨0, q⟩

/-- `grad_p.nvertices = n` (an assignment, not an accumulation). -/
def PolyAcc.setN (a : PolyAcc) (n : ℕ) : PolyAcc := { a with nvertices := n }

/-- The four `+=`s of `line2_from_xyxy_grad` routed into the two vertex
slots `i`, `j` of a polygon accumulator (as `line2_from_pp_grad` does when
its point accumulators are `grad_p.vertices[i]`, `grad_p.vertices[j]`). -/
def PolyAcc.addLinePP (acc : PolyAcc) (i j : ℕ) (pi pj : Point2) (g : Line2) : PolyAcc :=
  (acc.addPt i ⟨g.b - pj.y * g.c, -g.a + pj.x * g.c⟩).addPt j
    ⟨-g.b + pi.y * g.c, g.a - pi.x * g.c⟩

/-! ## Adjoints of constructors (geometry_grad.hpp lines 39-143) -/

/-- `_max_grad` (line 40): route `g` into the branch that won. -/
def _max_grad (a b g : ℚ) (acc : ℚ × ℚ) : ℚ × ℚ :=
  if a > b then (acc.1 + g, acc.2) else (acc.1, acc.2 + g)

/-- `_min_grad` (line 44). -/
def _min_grad (a b g : ℚ) (acc : ℚ × ℚ) : ℚ × ℚ :=
  if a < b then (acc.1 + g, acc.2) else (acc.1, acc.2 + g)

/-- `line2_from_xyxy_grad` (line 52); accumulator `(x1, y1, x2, y2)`. -/
def line2_from_xyxy_grad (_x1 y1 _x2 y2 : ℚ) (g : Line2) (acc : ℚ × ℚ × ℚ × ℚ) :
    ℚ × ℚ × ℚ × ℚ :=
  (acc.1 + (g.b - y2 * g.c), acc.2.1 + (-g.a + _x2 * g.c),
   acc.2.2.1 + (-g.b + y1 * g.c), acc.2.2.2 + (g.a - _x1 * g.c))

/-- `line2_from_pp_grad` (line 62). -/
def line2_from_pp_grad (p1 p2 : Point2) (g : Line2) (acc : Point2 × Point2) :
    Point2 × Point2 :=
  let r := line2_from_xyxy_grad p1.x p1.y p2.x p2.y g
    (acc.1.x, acc.1.y, acc.2.x, acc.2.y)
  (⟨r.1, r.2.1⟩, ⟨r.2.2.1, r.2.2.2⟩)

/-- `segment2_from_pp_grad` (line 69). -/
def segment2_from_pp_grad (g : Segment2) (acc : Point2 × Point2) : Point2 × Point2 :=
  (⟨acc.1.x + g.x1, acc.1.y + g.y1⟩, ⟨acc.2.x + g.x2, acc.2.y + g.y2⟩)

/-- `line2_from_segment2_grad` (line 79). -/
def line2_from_segment2_grad (s : Segment2) (g : Line2) (acc : Segment2) : Segment2 :=
  let r := line2_from_xyxy_grad s.x1 s.y1 s.x2 s.y2 g (acc.x1, acc.y1, acc.x2, acc.y2)
  ⟨r.1, r.2.1, r.2.2.1, r.2.2.2⟩

/-- `poly2_from_aabox2_grad` (line 85); the upstream quad gradient is a
`PolyAcc`-shaped value read at entries 0-3. -/
def poly2_from_aabox2_grad (g : PolyAcc) (acc : AABox2) : AABox2 :=
  { min_x := acc.min_x + ((g.v 0).x + (g.v 3).x)
    max_x := acc.max_x + ((g.v 1).x + (g.v 2).x)
    min_y := acc.min_y + ((g.v 0).y + (g.v 1).y)
    max_y := acc.max_y + ((g.v 2).y + (g.v 3).y) }

/-- The argmax-x search of `aabox2_from_poly2_grad` (lines 100-111):
first index attaining the strict running maximum of `x`. -/
def _arg_max_x (p : Poly2) : ℕ :=
  ((List.range' 1 (p.nvertices - 1)).foldl
    (fun (st : ℚ × ℕ) i => if (vget p i).x > st.1 then ((vget p i).x, i) else st)
    ((vget p 0).x, 0)).2

/-- Argmin of `x` in `aabox2_from_poly2_grad`. -/
def _arg_min_x (p : Poly2) : ℕ :=
  ((List.range' 1 (p.nvertices - 1)).foldl
    (fun (st : ℚ × ℕ) i => if (vget p i).x < st.1 then ((vget p i).x, i) else st)
    ((vget p 0).x, 0)).2

/-- Argmax of `y` in `aabox2_from_poly2_grad`. -/
def _arg_max_y (p : Poly2) : ℕ :=
  ((List.range' 1 (p.nvertices - 1)).foldl
    (fun (st : ℚ × ℕ) i => if (vget p i).y > st.1 then ((vget p i).y, i) else st)
    ((vget p 0).y, 0)).2

/-- Argmin of `y` in `aabox2_from_poly2_grad`. -/
def _arg_min_y (p : Poly2) : ℕ :=
  ((List.range' 1 (p.nvertices - 1)).foldl
    (fun (st : ℚ × ℕ) i => if (vget p i).y < st.1 then ((vget p i).y, i) else st)
    ((vget p 0).y, 0)).2

/-- `aabox2_from_poly2_grad` (line 96). -/
def aabox2_from_poly2_grad (p : Poly2) (g : AABox2) (acc : PolyAcc) : PolyAcc :=
  let imax_x := _arg_max_x p
  let imin_x := _arg_min_x p
  let imax_y := _arg_max_y p
  let imin_y := _arg_min_y p
  (List.range p.nvertices).foldl
    (fun a i =>
      let a1 := if i = imax_x then a.addX i g.max_x else a
      let a2 := if i = imin_x then a1.addX i g.min_x else a1
      let a3 := if i = imax_y then a2.addY i g.max_y else a2
      if i = imin_y then a3.addY i g.min_y else a3)
    (acc.setN p.nvertices)

/-- `poly2_from_xywhr_grad` (line 124); accumulator `(x, y, w, h, r)`. -/
def poly2_from_xywhr_grad (sn cs : ℚ → ℚ) (_x _y w h r : ℚ) (g : PolyAcc)
    (acc : ℚ × ℚ × ℚ × ℚ × ℚ) : ℚ × ℚ × ℚ × ℚ × ℚ :=
  let dxsin_grad := -(g.v 0).y + (g.v 1).y + (g.v 2).y - (g.v 3).y
  let dxcos_grad := -(g.v 0).x + (g.v 1).x + (g.v 2).x - (g.v 3).x
  let dysin_grad := (g.v 0).x + (g.v 1).x - (g.v 2).x - (g.v 3).x
  let dycos_grad := -(g.v 0).y - (g.v 1).y + (g.v 2).y + (g.v 3).y
  (acc.1 + ((g.v 0).x + (g.v 1).x + (g.v 2).x + (g.v 3).x),
   acc.2.1 + ((g.v 0).y + (g.v 1).y + (g.v 2).y + (g.v 3).y),
   acc.2.2.1 + (dxsin_grad * sn r + dxcos_grad * cs r) / 2,
   acc.2.2.2.1 + (dysin_grad * sn r + dycos_grad * cs r) / 2,
   acc.2.2.2.2 + (dxsin_grad * w * cs r - dxcos_grad * w * sn r
     + dysin_grad * h * cs r - dycos_grad * h * sn r) / 2)

/-! ## Adjoints of metrics (geometry_grad.hpp lines 147-302) -/

/-- `distance_grad(Point2, Point2, ...)` (line 147). -/
def distance_grad_pp (hyp : ℚ → ℚ → ℚ) (p1 p2 : Point2) (g : ℚ)
    (acc : Point2 × Point2) : Point2 × Point2 :=
  let dx := p1.x - p2.x; let dy := p1.y - p2.y; let d := hyp dx dy
  (⟨acc.1.x + g * dx / d, acc.1.y + g * dy / d⟩,
   ⟨acc.2.x - g * dx / d, acc.2.y - g * dy / d⟩)

/-- `distance_grad(Line2, Point2, ...)` (line 158). -/
def distance_grad_lp (hyp : ℚ → ℚ → ℚ) (l : Line2) (p : Point2) (g : ℚ)
    (acc : Line2 × Point2) : Line2 × Point2 :=
  let hab := hyp l.a l.b
  let hab3 := hab * hab * hab
  ({ a := acc.1.a + g * l.a * p.y * p.y / hab3
     b := acc.1.b + g * l.b * p.x * p.x / hab3
     c := acc.1.c + g * 1 / hab },
   ⟨acc.2.x + g * l.a / hab, acc.2.y + g * l.b / hab⟩)

/-- `distance_grad(Segment2, Point2, ...)` (line 172). -/
def distance_grad_sp (hyp : ℚ → ℚ → ℚ) (s : Segment2) (p : Point2) (g : ℚ)
    (acc : Segment2 × Point2) : Segment2 × Point2 :=
  let l := line2_from_segment2 s
  let t := t_from_ppoint l p
  let sign := l.a * p.x + l.b * p.y + l.c
  if t < t_from_pxy l s.x2 s.y2 then
    let (gp, gp2) := distance_grad_pp hyp p ⟨s.x2, s.y2⟩
      (if sign > 0 then g else -g) (acc.2, 0)
    ({ acc.1 with x2 := acc.1.x2 + gp2.x, y2 := acc.1.y2 + gp2.y }, gp)
  else if t > t_from_pxy l s.x1 s.y1 then
    let (gp, gp1) := distance_grad_pp hyp p ⟨s.x1, s.y1⟩
      (if sign > 0 then g else -g) (acc.2, 0)
    ({ acc.1 with x1 := acc.1.x1 + gp1.x, y1 := acc.1.y1 + gp1.y }, gp)
  else
    let (gl, gp) := distance_grad_lp hyp l p g (0, acc.2)
    (line2_from_segment2_grad s gl acc.1, gp)

/-- `distance_grad(Poly2, Point2, ...)` (line 206): segment adjoint on the
minimising edge, routed into vertex slots `idx`, `idx+1`. -/
def distance_grad_poly (hyp : ℚ → ℚ → ℚ) (poly : Poly2) (p : Point2) (g : ℚ)
    (idx : ℕ) (acc : PolyAcc × Point2) : PolyAcc × Point2 :=
  let nidx := _mod_inc idx poly.nvertices
  let s := segment2_from_pp (vget poly idx) (vget poly nidx)
  let (gs, gp) := distance_grad_sp hyp s p (-g) (0, acc.2)
  ((acc.1.addPt idx ⟨gs.x1, gs.y1⟩).addPt nidx ⟨gs.x2, gs.y2⟩, gp)

/-- `area_grad(AABox2, ...)` (line 217). -/
def area_grad_box (a : AABox2) (g : ℚ) (acc : AABox2) : AABox2 :=
  let lx := a.max_x - a.min_x
  let ly := a.max_y - a.min_y
  { min_x := acc.min_x - g * ly, max_x := acc.max_x + g * ly
    min_y := acc.min_y - g * lx, max_y := acc.max_y + g * lx }

/-- `area_grad(Poly2, ...)` (geometry_grad.hpp lines 228-250): head/tail
updates then the loop over `i = 1 .. n-1`. -/
def area_grad (p : Poly2) (g : ℚ) (acc : PolyAcc) : PolyAcc :=
  if p.nvertices ≤ 2 then acc
  else
    let n := p.nvertices
    let hg := g / 2
    let a0 := ((((acc.setN n).addX 0 (-(hg * (vget p (n - 1)).y))).addY 0
      (hg * (vget p (n - 1)).x)).addX (n - 1) (hg * (vget p 0).y)).addY (n - 1)
      (-(hg * (vget p 0).x))
    (List.range' 1 (n - 1)).foldl
      (fun a i =>
        (((a.addX i (-(hg * (vget p (i - 1)).y))).addY i
          (hg * (vget p (i - 1)).x)).addX (i - 1) (hg * (vget p i).y)).addY (i - 1)
          (-(hg * (vget p i).x)))
      a0

/-- `dimension_grad(AABox2, ...)` (line 252). -/
def dimension_grad_box (hyp : ℚ → ℚ → ℚ) (a : AABox2) (g : ℚ) (acc : AABox2) : AABox2 :=
  let dx := a.max_x - a.min_x; let dy := a.max_y - a.min_y; let d := hyp dx dy
  { min_x := acc.min_x - g * dx / d, max_x := acc.max_x + g * dx / d
    min_y := acc.min_y - g * dy / d, max_y := acc.max_y + g * dy / d }

/-- `dimension_grad(Poly2, ...)` (line 263): the point-pair distance
adjoint routed into vertex slots `flag1`, `flag2` (alias-faithful). -/
def dimension_grad_poly (hyp : ℚ → ℚ → ℚ) (p : Poly2) (g : ℚ) (flag1 flag2 : ℕ)
    (acc : PolyAcc) : PolyAcc :=
  let dx := (vget p flag1).x - (vget p flag2).x
  let dy := (vget p flag1).y - (vget p flag2).y
  let d := hyp dx dy
  (acc.addPt flag1 ⟨g * dx / d, g * dy / d⟩).addPt flag2 ⟨-(g * dx / d), -(g * dy / d)⟩

/-- `center_grad(AABox2, ...)` (line 270). -/
def center_grad_box (g : Point2) (acc : AABox2) : AABox2 :=
  { min_x := acc.min_x + g.x / 2, max_x := acc.max_x + g.x / 2
    min_y := acc.min_y + g.y / 2, max_y := acc.max_y + g.y / 2 }

/-- `center_grad(Poly2, ...)` (line 279). -/
def center_grad_poly (p : Poly2) (g : Point2) (acc : PolyAcc) : PolyAcc :=
  let grad_a := center_grad_box g 0
  aabox2_from_poly2_grad p grad_a acc

/-- `centroid_grad(AABox2, ...)` (line 287) = `center_grad`. -/
def centroid_grad_box (g : Point2) (acc : AABox2) : AABox2 := center_grad_box g acc

/-- `centroid_grad(Poly2, ...)` (line 293). -/
def centroid_grad_poly (p : Poly2) (g : Point2) (acc : PolyAcc) : PolyAcc :=
  (List.range p.nvertices).foldl
    (fun a i => a.addPt i ⟨g.x / p.nvertices, g.y / p.nvertices⟩)
    (acc.setN p.nvertices)

/-! ## Adjoints of operators (geometry_grad.hpp lines 304-602) -/

/-- `intersect_grad(Line2, Line2, ...)` (line 306): Cramer's-rule adjoint. -/
def intersect_grad_ll (l1 l2 : Line2) (g : Point2) (acc : Line2 × Line2) :
    Line2 × Line2 :=
  let wab := l1.a * l2.b - l2.a * l1.b
  let wbc := l1.b * l2.c - l2.b * l1.c
  let wca := l1.c * l2.a - l2.c * l1.a
  let g_wbc := g.x / wab
  let g_wca := g.y / wab
  let g_wab := -(wbc * g_wbc + wca * g_wca) / wab
  ({ a := acc.1.a + (-l2.c * g_wca + l2.b * g_wab)
     b := acc.1.b + (l2.c * g_wbc - l2.a * g_wab)
     c := acc.1.c + (l2.a * g_wca - l2.b * g_wbc) },
   { a := acc.2.a + (l1.c * g_wca - l1.b * g_wab)
     b := acc.2.b + (-l1.c * g_wbc + l1.a * g_wab)
     c := acc.2.c + (l1.b * g_wbc - l1.a * g_wca) })

/-- One loop step of `intersect_grad(Poly2, Poly2, ...)` (lines 335-369). -/
def _intersect_grad_step (p1 p2 : Poly2) (g : PolyAcc) (xflags : List ℕ)
    (acc : PolyAcc × PolyAcc) (i : ℕ) : PolyAcc × PolyAcc :=
  let iprev := _mod_dec i g.nvertices
  let fi := xflags.getD i 0
  let fip := xflags.getD iprev 0
  if fi % 2 = fip % 2 then
    if fi % 2 = 1 then (acc.1.addPt (fi / 2) (g.v i), acc.2)
    else (acc.1, acc.2.addPt (fi / 2) (g.v i))
  else if fi % 2 = 1 then
    let epni := fi / 2; let epnj := _mod_inc epni p1.nvertices
    let eppi := fip / 2; let eppj := _mod_inc eppi p2.nvertices
    let edge_next := line2_from_pp (vget p1 epni) (vget p1 epnj)
    let edge_prev := line2_from_pp (vget p2 eppi) (vget p2 eppj)
    let (gen, gep) := intersect_grad_ll edge_next edge_prev (g.v i) (0, 0)
    (acc.1.addLinePP epni epnj (vget p1 epni) (vget p1 epnj) gen,
     acc.2.addLinePP eppi eppj (vget p2 eppi) (vget p2 eppj) gep)
  else
    let epni := fi / 2; let epnj := _mod_inc epni p2.nvertices
    let eppi := fip / 2; let eppj := _mod_inc eppi p1.nvertices
    let edge_next := line2_from_pp (vget p2 epni) (vget p2 epnj)
    let edge_prev := line2_from_pp (vget p1 eppi) (vget p1 eppj)
    let (gen, gep) := intersect_grad_ll edge_next edge_prev (g.v i) (0, 0)
    (acc.1.addLinePP eppi eppj (vget p1 eppi) (vget p1 eppj) gep,
     acc.2.addLinePP epni epnj (vget p2 epni) (vget p2 epnj) gen)

/-- `intersect_grad(Poly2, Poly2, ...)` (line 326). -/
def intersect_grad (p1 p2 : Poly2) (g : PolyAcc) (xflags : List ℕ)
    (acc : PolyAcc × PolyAcc) : PolyAcc × PolyAcc :=
  (List.range g.nvertices).foldl (_intersect_grad_step p1 p2 g xflags)
    (acc.1.setN p1.nvertices, acc.2.setN p2.nvertices)

/-- `intersect_grad(AABox2, AABox2, ...)` (line 372). -/
def intersect_grad_bb (a1 a2 : AABox2) (g : AABox2) (acc : AABox2 × AABox2) :
    AABox2 × AABox2 :=
  let r1 := _max_grad a1.min_x a2.min_x g.min_x (acc.1.min_x, acc.2.min_x)
  let r2 := _min_grad a1.max_x a2.max_x g.max_x (acc.1.max_x, acc.2.max_x)
  let r3 := _max_grad a1.min_y a2.min_y g.min_y (acc.1.min_y, acc.2.min_y)
  let r4 := _min_grad a1.max_y a2.max_y g.max_y (acc.1.max_y, acc.2.max_y)
  (⟨r1.1, r2.1, r3.1, r4.1⟩, ⟨r1.2, r2.2, r3.2, r4.2⟩)

/-- `merge_grad(Poly2, Poly2, ...)` (line 382): copied-vertex routing. -/
def merge_grad (p1 p2 : Poly2) (g : PolyAcc) (mflags : List ℕ)
    (acc : PolyAcc × PolyAcc) : PolyAcc × PolyAcc :=
  (List.range g.nvertices).foldl
    (fun a i =>
      let f := mflags.getD i 0
      if f % 2 = 1 then (a.1.addPt (f / 2) (g.v i), a.2)
      else (a.1, a.2.addPt (f / 2) (g.v i)))
    (acc.1.setN p1.nvertices, acc.2.setN p2.nvertices)

/-- `merge_grad(AABox2, AABox2, ...)` (line 400). -/
def merge_grad_bb (a1 a2 : AABox2) (g : AABox2) (acc : AABox2 × AABox2) :
    AABox2 × AABox2 :=
  let r1 := _min_grad a1.min_x a2.min_x g.min_x (acc.1.min_x, acc.2.min_x)
  let r2 := _max_grad a1.max_x a2.max_x g.max_x (acc.1.max_x, acc.2.max_x)
  let r3 := _min_grad a1.min_y a2.min_y g.min_y (acc.1.min_y, acc.2.min_y)
  let r4 := _max_grad a1.max_y a2.max_y g.max_y (acc.1.max_y, acc.2.max_y)
  (⟨r1.1, r2.1, r3.1, r4.1⟩, ⟨r1.2, r2.2, r3.2, r4.2⟩)

/-- `iou_grad(AABox2, AABox2, ...)` (line 410). -/
def iou_grad_bb (a1 a2 : AABox2) (g : ℚ) (acc : AABox2 × AABox2) : AABox2 × AABox2 :=
  let ai := intersectBB a1 a2
  let area_i := areaBox ai
  let area_u := areaBox a1 + areaBox a2 - area_i
  let gi := g / area_u
  let gu := -gi * area_i / area_u
  let gi2 := gi - gu
  let b1 := area_grad_box a1 gu acc.1
  let b2 := area_grad_box a2 gu acc.2
  let grad_ai := area_grad_box ai gi2 0
  intersect_grad_bb a1 a2 grad_ai (b1, b2)

/-- `_construct_intersection` (line 430): rebuild the intersection polygon
from the saved flags. -/
def _construct_intersection (p1 p2 : Poly2) (xflags : List ℕ) (nx : ℕ) : Poly2 :=
  ⟨(List.range nx).map fun i =>
    let iprev := _mod_dec i nx
    let fi := xflags.getD i 0
    let fip := xflags.getD iprev 0
    if fi % 2 = fip % 2 then
      if fi % 2 = 1 then vget p1 (fi / 2) else vget p2 (fi / 2)
    else if fi % 2 = 1 then
      let epni := fi / 2; let epnj := _mod_inc epni p1.nvertices
      let eppi := fip / 2; let eppj := _mod_inc eppi p2.nvertices
      intersectLL (line2_from_pp (vget p2 eppi) (vget p2 eppj))
        (line2_from_pp (vget p1 epni) (vget p1 epnj))
    else
      let epni := fi / 2; let epnj := _mod_inc epni p2.nvertices
      let eppi := fip / 2; let eppj := _mod_inc eppi p1.nvertices
      intersectLL (line2_from_pp (vget p1 eppi) (vget p1 eppj))
        (line2_from_pp (vget p2 epni) (vget p2 epnj))⟩

/-- `_construct_merged_hull` (line 470). -/
def _construct_merged_hull (p1 p2 : Poly2) (mflags : List ℕ) (nm : ℕ) : Poly2 :=
  ⟨(List.range nm).map fun i =>
    let f := mflags.getD i 0
    if f % 2 = 1 then vget p1 (f / 2) else vget p2 (f / 2)⟩

/-- `iou_grad(Poly2, Poly2, ...)` (line 485). -/
def iou_grad (p1 p2 : Poly2) (g : ℚ) (nx : ℕ) (xflags : List ℕ)
    (acc : PolyAcc × PolyAcc) : PolyAcc × PolyAcc :=
  let pi := _construct_intersection p1 p2 xflags nx
  let area_i := area pi
  let area_u := area p1 + area p2 - area_i
  let gi := g / area_u
  let gu := -gi * area_i / area_u
  let gi2 := gi - gu
  let b1 := area_grad p1 gu acc.1
  let b2 := area_grad p2 gu acc.2
  let grad_pi := area_grad pi gi2 pzero
  intersect_grad p1 p2 grad_pi xflags (b1, b2)

/-- `giou_grad(AABox2, AABox2, ...)` (line 505). -/
def giou_grad_bb (a1 a2 : AABox2) (g : ℚ) (acc : AABox2 × AABox2) : AABox2 × AABox2 :=
  let ai := intersectBB a1 a2
  let am := mergeBB a1 a2
  let area_i := areaBox ai
  let area_m := areaBox am
  let area_u := areaBox a1 + areaBox a2 - area_i
  let gi := g / area_u
  let gu := g * (1 / area_m - area_i / (area_u * area_u))
  let gi2 := gi - gu
  let gm := g * (-area_u / (area_m * area_m))
  let b1 := area_grad_box a1 gu acc.1
  let b2 := area_grad_box a2 gu acc.2
  let grad_ai := area_grad_box ai gi2 0
  let grad_am := area_grad_box am gm 0
  let c := intersect_grad_bb a1 a2 grad_ai (b1, b2)
  merge_grad_bb a1 a2 grad_am c

/-- `giou_grad(Poly2, Poly2, ...)` (line 528). -/
def giou_grad (p1 p2 : Poly2) (g : ℚ) (nx nm : ℕ) (xflags mflags : List ℕ)
    (acc : PolyAcc × PolyAcc) : PolyAcc × PolyAcc :=
  let pi := _construct_intersection p1 p2 xflags nx
  let pm := _construct_merged_hull p1 p2 mflags nm
  let area_i := area pi
  let area_m := area pm
  let area_u := area p1 + area p2 - area_i
  let gi := g / area_u
  let gu := g * (1 / area_m - area_i / (area_u * area_u))
  let gi2 := gi - gu
  let gm := g * (-area_u / (area_m * area_m))
  let b1 := area_grad p1 gu acc.1
  let b2 := area_grad p2 gu acc.2
  let grad_pi := area_grad pi gi2 pzero
  let grad_pm := area_grad pm gm pzero
  let c := intersect_grad p1 p2 grad_pi xflags (b1, b2)
  merge_grad p1 p2 grad_pm mflags c

/-- `diou_grad(AABox2, AABox2, ...)` (line 556). -/
def diou_grad_bb (hyp : ℚ → ℚ → ℚ) (a1 a2 : AABox2) (g : ℚ) (acc : AABox2 × AABox2) :
    AABox2 × AABox2 :=
  let c1 := centroidBox a1
  let c2 := centroidBox a2
  let cd := distance_pp hyp c1 c2
  let am := mergeBB a1 a2
  let maxd := hyp (am.max_x - am.min_x) (am.max_y - am.min_y)
  let grad_cd := -g * 2 * cd / (maxd * maxd)
  let grad_maxd := g * 2 * (cd * cd) / (maxd * maxd * maxd)
  let c := iou_grad_bb a1 a2 g acc
  let (gc1, gc2) := distance_grad_pp hyp c1 c2 grad_cd (0, 0)
  let c' := (centroid_grad_box gc1 c.1, centroid_grad_box gc2 c.2)
  let grad_am := dimension_grad_box hyp am grad_maxd 0
  merge_grad_bb a1 a2 grad_am c'

/-- `diou_grad(Poly2, Poly2, ...)` (line 579): the diameter term is routed
through the flag-selected vertex references `grad_v1`, `grad_v2`
(alias-faithful `+=` sequence). -/
def diou_grad (hyp : ℚ → ℚ → ℚ) (p1 p2 : Poly2) (g : ℚ) (nx : ℕ)
    (dflag1 dflag2 : ℕ) (xflags : List ℕ) (acc : PolyAcc × PolyAcc) :
    PolyAcc × PolyAcc :=
  let c1 := centroid p1
  let c2 := centroid p2
  let cd := distance_pp hyp c1 c2
  let v1 := if dflag1 % 2 = 1 then vget p1 (dflag1 / 2) else vget p2 (dflag1 / 2)
  let v2 := if dflag2 % 2 = 1 then vget p1 (dflag2 / 2) else vget p2 (dflag2 / 2)
  let maxd := distance_pp hyp v1 v2
  let grad_cd := -g * 2 * cd / (maxd * maxd)
  let grad_maxd := g * 2 * (cd * cd) / (maxd * maxd * maxd)
  let c := iou_grad p1 p2 g nx xflags acc
  let (gc1, gc2) := distance_grad_pp hyp c1 c2 grad_cd (0, 0)
  let c' := (centroid_grad_poly p1 gc1 c.1, centroid_grad_poly p2 gc2 c.2)
  let d := hyp (v1.x - v2.x) (v1.y - v2.y)
  let dv : Point2 := ⟨grad_maxd * (v1.x - v2.x) / d, grad_maxd * (v1.y - v2.y) / d⟩
  let c'' := if dflag1 % 2 = 1 then (c'.1.addPt (dflag1 / 2) dv, c'.2)
             else (c'.1, c'.2.addPt (dflag1 / 2) dv)
  if dflag2 % 2 = 1 then (c''.1.addPt (dflag2 / 2) ⟨-dv.x, -dv.y⟩, c''.2)
  else (c''.1, c''.2.addPt (dflag2 / 2) ⟨-dv.x, -dv.y⟩)

/-! ## Accumulation properties of the adjoint functions (C5, C8) -/

instance : AddCommMonoid Point2 where
  add_assoc a b c := by apply Point2.ext_xy <;> simp [add_assoc]
  zero_add a := by apply Point2.ext_xy <;> simp
  add_zero a := by apply Point2.ext_xy <;> simp
  add_comm a b := by apply Point2.ext_xy <;> simp [add_comm]
  nsmul := nsmulRec

theorem Line2.ext3 {a b : Line2} (h1 : a.a = b.a) (h2 : a.b = b.b) (h3 : a.c = b.c) :
    a = b := by cases a; cases b; simp_all

instance : AddCommMonoid Line2 where
  add_assoc a b c := by apply Line2.ext3 <;> simp [add_assoc]
  zero_add a := by apply Line2.ext3 <;> simp
  add_zero a := by apply Line2.ext3 <;> simp
  add_comm a b := by apply Line2.ext3 <;> simp [add_comm]
  nsmul := nsmulRec

instance : AddCommMonoid AABox2 where
  add_assoc a b c := by apply AABox2.ext4 <;> simp [add_assoc]
  zero_add a := by apply AABox2.ext4 <;> simp
  add_zero a := by apply AABox2.ext4 <;> simp
  add_comm a b := by apply AABox2.ext4 <;> simp [add_comm]
  nsmul := nsmulRec

theorem Segment2.ext_seg {a b : Segment2} (h1 : a.x1 = b.x1) (h2 : a.y1 = b.y1)
    (h3 : a.x2 = b.x2) (h4 : a.y2 = b.y2) : a = b := by cases a; cases b; simp_all

instance : AddCommMonoid Segment2 where
  add_assoc a b c := by apply Segment2.ext_seg <;> simp [add_assoc]
  zero_add a := by apply Segment2.ext_seg <;> simp
  add_zero a := by apply Segment2.ext_seg <;> simp
  add_comm a b := by apply Segment2.ext_seg <;> simp [add_comm]
  nsmul := nsmulRec

/-- An adjoint on a fixed-shape accumulator only accumulates: the result is
the incoming accumulator plus the contribution deposited on a
zero-initialised one. -/
abbrev accum {α : Type} [Add α] [Zero α] (f : α → α) : Prop := ∀ acc, f acc = acc + f 0

/-- Pointwise accumulation for a polygon-buffer adjoint: no gradient
coordinate is overwritten, each is incremented by the zero-accumulator
contribution.  (`nvertices` is bookkeeping, not a gradient coordinate.) -/
abbrev accumP (f : PolyAcc → PolyAcc) : Prop :=
  ∀ acc j, (f acc).v j = acc.v j + (f pzero).v j

/-- `accumP` for adjoints writing two polygon buffers. -/
abbrev accumP2 (f : PolyAcc × PolyAcc → PolyAcc × PolyAcc) : Prop :=
  ∀ acc j, ((f acc).1.v j = acc.1.v j + (f (pzero, pzero)).1.v j) ∧
    ((f acc).2.v j = acc.2.v j + (f (pzero, pzero)).2.v j)

/-- `accumP` for adjoints writing a polygon buffer and a point. -/
abbrev accumPPt (f : PolyAcc × Point2 → PolyAcc × Point2) : Prop :=
  ∀ acc j, ((f acc).1.v j = acc.1.v j + (f (pzero, 0)).1.v j) ∧
    ((f acc).2 = acc.2 + (f (pzero, 0)).2)

theorem accum_comp {α : Type} [AddMonoid α] {f g : α → α} (hf : accum f) (hg : accum g) :
    accum (fun a => g (f a)) := by
  intro acc
  show g (f acc) = acc + g (f 0)
  rw [hg (f acc), hf acc, hg (f 0), add_assoc]

theorem pair_app_accum {α β : Type} [AddMonoid α] [AddMonoid β]
    {f : α → α} {g : β → β} (hf : accum f) (hg : accum g) :
    accum (fun p : α × β => (f p.1, g p.2)) := by
  intro acc
  refine Prod.ext ?_ ?_ <;> simp [hf acc.1, hg acc.2]

@[simp] theorem pzero_v (j : ℕ) : pzero.v j = 0 := rfl

@[simp] theorem PolyAcc.addPt_v (a : PolyAcc) (i : ℕ) (dp : Point2) (j : ℕ) :
    (a.addPt i dp).v j = if j = i then a.v j + dp else a.v j := rfl

@[simp] theorem PolyAcc.setN_v (a : PolyAcc) (n j : ℕ) : (a.setN n).v j = a.v j := rfl

theorem master_comp {f g : PolyAcc → PolyAcc}
    (hf : accumP f) (hg : accumP g) : accumP (fun a => g (f a)) := by
  intro a j
  rw [hg (f a) j, hf a j, hg (f pzero) j, add_assoc]

theorem addPt_accumP (i : ℕ) (dp : Point2) : accumP (fun a => a.addPt i dp) := by
  intro a j
  simp only [PolyAcc.addPt_v, pzero_v]
  split <;> simp

theorem foldl_master {β : Type} (step : PolyAcc → β → PolyAcc)
    (hstep : ∀ b, accumP (fun a => step a b)) :
    ∀ bs : List β, ∀ (a : PolyAcc) (j : ℕ),
      (bs.foldl step a).v j = a.v j + (bs.foldl step pzero).v j := by
  intro bs
  induction bs with
  | nil => intro a j; simp
  | cons b t ih =>
    intro a j
    rw [List.foldl_cons, List.foldl_cons, ih (step a b) j, hstep b a j,
      ih (step pzero b) j, add_assoc]

theorem foldl_master2 {β : Type} (step : PolyAcc × PolyAcc → β → PolyAcc × PolyAcc)
    (hstep : ∀ b, accumP2 (fun a => step a b)) :
    ∀ bs : List β, ∀ a (j : ℕ),
      ((bs.foldl step a).1.v j = a.1.v j + (bs.foldl step (pzero, pzero)).1.v j) ∧
      ((bs.foldl step a).2.v j = a.2.v j + (bs.foldl step (pzero, pzero)).2.v j) := by
  intro bs
  induction bs with
  | nil => intro a j; simp
  | cons b t ih =>
    intro a j
    rw [List.foldl_cons, List.foldl_cons]
    constructor
    · rw [(ih (step a b) j).1, (hstep b a j).1, (ih (step (pzero, pzero) b) j).1, add_assoc]
    · rw [(ih (step a b) j).2, (hstep b a j).2, (ih (step (pzero, pzero) b) j).2, add_assoc]

/-! ### Fixed-shape adjoints only accumulate -/

theorem _max_grad_accum (a b g : ℚ) : accum (_max_grad a b g) := by
  intro acc; unfold _max_grad
  split <;> simp [Prod.ext_iff] <;> ring

theorem _min_grad_accum (a b g : ℚ) : accum (_min_grad a b g) := by
  intro acc; unfold _min_grad
  split <;> simp [Prod.ext_iff] <;> ring

theorem line2_from_xyxy_grad_accum (x1 y1 x2 y2 : ℚ) (g : Line2) :
    accum (line2_from_xyxy_grad x1 y1 x2 y2 g) := by
  intro acc; simp [line2_from_xyxy_grad, Prod.ext_iff]

theorem line2_from_pp_grad_accum (p1 p2 : Point2) (g : Line2) :
    accum (line2_from_pp_grad p1 p2 g) := by
  intro acc
  simp only [line2_from_pp_grad, line2_from_xyxy_grad]
  refine Prod.ext ?_ ?_ <;> apply Point2.ext_xy <;> simp

theorem segment2_from_pp_grad_accum (g : Segment2) : accum (segment2_from_pp_grad g) := by
  intro acc
  simp only [segment2_from_pp_grad]
  refine Prod.ext ?_ ?_ <;> apply Point2.ext_xy <;> simp

theorem line2_from_segment2_grad_accum (s : Segment2) (g : Line2) :
    accum (line2_from_segment2_grad s g) := by
  intro acc
  simp only [line2_from_segment2_grad, line2_from_xyxy_grad]
  apply Segment2.ext_seg <;> simp

theorem poly2_from_aabox2_grad_accum (g : PolyAcc) : accum (poly2_from_aabox2_grad g) := by
  intro acc
  simp only [poly2_from_aabox2_grad]
  apply AABox2.ext4 <;> simp

theorem poly2_from_xywhr_grad_accum (sn cs : ℚ → ℚ) (x y w h r : ℚ) (g : PolyAcc) :
    accum (poly2_from_xywhr_grad sn cs x y w h r g) := by
  intro acc; simp [poly2_from_xywhr_grad, Prod.ext_iff]

theorem distance_grad_pp_accum (hyp : ℚ → ℚ → ℚ) (p1 p2 : Point2) (g : ℚ) :
    accum (distance_grad_pp hyp p1 p2 g) := by
  intro acc
  simp only [distance_grad_pp]
  refine Prod.ext ?_ ?_ <;> apply Point2.ext_xy <;> simp <;> ring

theorem distance_grad_lp_accum (hyp : ℚ → ℚ → ℚ) (l : Line2) (p : Point2) (g : ℚ) :
    accum (distance_grad_lp hyp l p g) := by
  intro acc
  simp only [distance_grad_lp]
  refine Prod.ext ?_ ?_
  · apply Line2.ext3 <;> simp
  · apply Point2.ext_xy <;> simp

theorem distance_grad_sp_accum (hyp : ℚ → ℚ → ℚ) (s : Segment2) (p : Point2) (g : ℚ) :
    accum (distance_grad_sp hyp s p g) := by
  intro acc
  simp only [distance_grad_sp, distance_grad_pp, distance_grad_lp,
    line2_from_segment2_grad, line2_from_xyxy_grad]
  split_ifs <;> refine Prod.ext ?_ ?_ <;>
    first
      | (apply Segment2.ext_seg <;> simp <;> ring)
      | (apply Point2.ext_xy <;> simp <;> ring)

theorem area_grad_box_accum (a : AABox2) (g : ℚ) : accum (area_grad_box a g) := by
  intro acc
  simp only [area_grad_box]
  apply AABox2.ext4 <;> simp <;> ring

theorem dimension_grad_box_accum (hyp : ℚ → ℚ → ℚ) (a : AABox2) (g : ℚ) :
    accum (dimension_grad_box hyp a g) := by
  intro acc
  simp only [dimension_grad_box]
  apply AABox2.ext4 <;> simp <;> ring

theorem center_grad_box_accum (g : Point2) : accum (center_grad_box g) := by
  intro acc
  simp only [center_grad_box]
  apply AABox2.ext4 <;> simp

theorem centroid_grad_box_accum (g : Point2) : accum (centroid_grad_box g) := by
  intro acc
  simp only [centroid_grad_box]
  exact center_grad_box_accum g acc

theorem intersect_grad_ll_accum (l1 l2 : Line2) (g : Point2) :
    accum (intersect_grad_ll l1 l2 g) := by
  intro acc
  simp only [intersect_grad_ll]
  refine Prod.ext ?_ ?_ <;> apply Line2.ext3 <;> simp

theorem intersect_grad_bb_accum (a1 a2 : AABox2) (g : AABox2) :
    accum (intersect_grad_bb a1 a2 g) := by
  intro acc
  simp only [intersect_grad_bb, _max_grad, _min_grad]
  split_ifs <;> refine Prod.ext ?_ ?_ <;> apply AABox2.ext4 <;> simp <;> ring

theorem merge_grad_bb_accum (a1 a2 : AABox2) (g : AABox2) :
    accum (merge_grad_bb a1 a2 g) := by
  intro acc
  simp only [merge_grad_bb, _max_grad, _min_grad]
  split_ifs <;> refine Prod.ext ?_ ?_ <;> apply AABox2.ext4 <;> simp <;> ring

theorem iou_grad_bb_accum (a1 a2 : AABox2) (g : ℚ) : accum (iou_grad_bb a1 a2 g) := by
  intro acc
  exact accum_comp
    (pair_app_accum (area_grad_box_accum a1 _) (area_grad_box_accum a2 _))
    (intersect_grad_bb_accum a1 a2 _) acc

theorem giou_grad_bb_accum (a1 a2 : AABox2) (g : ℚ) : accum (giou_grad_bb a1 a2 g) := by
  intro acc
  exact accum_comp
    (accum_comp
      (pair_app_accum (area_grad_box_accum a1 _) (area_grad_box_accum a2 _))
      (intersect_grad_bb_accum a1 a2 _))
    (merge_grad_bb_accum a1 a2 _) acc

theorem diou_grad_bb_accum (hyp : ℚ → ℚ → ℚ) (a1 a2 : AABox2) (g : ℚ) :
    accum (diou_grad_bb hyp a1 a2 g) := by
  intro acc
  exact accum_comp
    (accum_comp (iou_grad_bb_accum a1 a2 g)
      (pair_app_accum (centroid_grad_box_accum _) (centroid_grad_box_accum _)))
    (merge_grad_bb_accum a1 a2 _) acc

/-! ### Polygon-buffer adjoints only accumulate -/

theorem accumP2_comp {f g : PolyAcc × PolyAcc → PolyAcc × PolyAcc}
    (hf : accumP2 f) (hg : accumP2 g) : accumP2 (fun a => g (f a)) := by
  intro a j
  constructor
  · rw [(hg (f a) j).1, (hf a j).1, (hg (f (pzero, pzero)) j).1, add_assoc]
  · rw [(hg (f a) j).2, (hf a j).2, (hg (f (pzero, pzero)) j).2, add_assoc]

theorem accumP2_pair {f g : PolyAcc → PolyAcc} (hf : accumP f) (hg : accumP g) :
    accumP2 (fun p => (f p.1, g p.2)) := by
  intro a j
  exact ⟨hf a.1 j, hg a.2 j⟩

theorem accumP2_condAddPt (c : Prop) [Decidable c] (i1 i2 : ℕ) (d : Point2) :
    accumP2 (fun a : PolyAcc × PolyAcc =>
      if c then (a.1.addPt i1 d, a.2) else (a.1, a.2.addPt i2 d)) := by
  intro a j
  by_cases hc : c <;> simp only [hc, if_true, if_false, PolyAcc.addPt_v, pzero_v] <;>
    constructor <;> (try split_ifs) <;> simp

theorem aabox2_from_poly2_grad_accumP (p : Poly2) (g : AABox2) :
    accumP (aabox2_from_poly2_grad p g) := by
  have hstep : ∀ b, accumP (fun a : PolyAcc =>
      let a1 := if b = _arg_max_x p then a.addX b g.max_x else a
      let a2 := if b = _arg_min_x p then a1.addX b g.min_x else a1
      let a3 := if b = _arg_max_y p then a2.addY b g.max_y else a2
      if b = _arg_min_y p then a3.addY b g.min_y else a3) := by
    intro b a j
    simp only [PolyAcc.addX, PolyAcc.addY,
      apply_ite (fun a : PolyAcc => PolyAcc.v a j), PolyAcc.addPt_v, pzero_v]
    split_ifs <;> (apply Point2.ext_xy <;> simp <;> ring)
  intro acc j
  unfold aabox2_from_poly2_grad
  rw [foldl_master _ hstep _ (acc.setN p.nvertices) j,
    foldl_master _ hstep _ (pzero.setN p.nvertices) j]
  simp [add_assoc]

theorem dimension_grad_poly_accumP (hyp : ℚ → ℚ → ℚ) (p : Poly2) (g : ℚ)
    (flag1 flag2 : ℕ) : accumP (dimension_grad_poly hyp p g flag1 flag2) := by
  intro acc j
  simp only [dimension_grad_poly, PolyAcc.addPt_v, pzero_v]
  split_ifs <;> (apply Point2.ext_xy <;> simp <;> ring)

theorem center_grad_poly_accumP (p : Poly2) (g : Point2) :
    accumP (center_grad_poly p g) := by
  intro acc j
  unfold center_grad_poly
  exact aabox2_from_poly2_grad_accumP p _ acc j

theorem centroid_grad_poly_accumP (p : Poly2) (g : Point2) :
    accumP (centroid_grad_poly p g) := by
  intro acc j
  unfold centroid_grad_poly
  rw [foldl_master _ (fun b => addPt_accumP b _) _ (acc.setN p.nvertices) j,
    foldl_master _ (fun b => addPt_accumP b _) _ (pzero.setN p.nvertices) j]
  simp [add_assoc]

theorem _intersect_grad_step_accumP2 (p1 p2 : Poly2) (g : PolyAcc) (xflags : List ℕ)
    (b : ℕ) : accumP2 (fun a => _intersect_grad_step p1 p2 g xflags a b) := by
  intro a j
  simp only [_intersect_grad_step, PolyAcc.addLinePP]
  split_ifs <;> constructor <;>
    simp only [PolyAcc.addPt_v, pzero_v] <;> (try split_ifs) <;>
    (apply Point2.ext_xy <;> simp <;> try ring)

theorem intersect_grad_accumP2 (p1 p2 : Poly2) (g : PolyAcc) (xflags : List ℕ) :
    accumP2 (intersect_grad p1 p2 g xflags) := by
  intro acc j
  unfold intersect_grad
  have h1 := foldl_master2 _ (_intersect_grad_step_accumP2 p1 p2 g xflags)
    (List.range g.nvertices) (acc.1.setN p1.nvertices, acc.2.setN p2.nvertices) j
  have h2 := foldl_master2 _ (_intersect_grad_step_accumP2 p1 p2 g xflags)
    (List.range g.nvertices) ((pzero.setN p1.nvertices : PolyAcc),
      (pzero.setN p2.nvertices : PolyAcc)) j
  constructor
  · rw [h1.1, h2.1]; simp [add_assoc]
  · rw [h1.2, h2.2]; simp [add_assoc]

theorem merge_grad_accumP2 (p1 p2 : Poly2) (g : PolyAcc) (mflags : List ℕ) :
    accumP2 (merge_grad p1 p2 g mflags) := by
  have hstep : ∀ b, accumP2 (fun a : PolyAcc × PolyAcc =>
      let f := mflags.getD b 0
      if f % 2 = 1 then (a.1.addPt (f / 2) (g.v b), a.2)
      else (a.1, a.2.addPt (f / 2) (g.v b))) := by
    intro b a j
    simp only []
    split_ifs <;> constructor <;> simp only [PolyAcc.addPt_v, pzero_v] <;>
      (try split_ifs) <;> simp
  intro acc j
  unfold merge_grad
  have h1 := foldl_master2 _ hstep (List.range g.nvertices)
    (acc.1.setN p1.nvertices, acc.2.setN p2.nvertices) j
  have h2 := foldl_master2 _ hstep (List.range g.nvertices)
    ((pzero.setN p1.nvertices : PolyAcc), (pzero.setN p2.nvertices : PolyAcc)) j
  constructor
  · rw [h1.1, h2.1]; simp [add_assoc]
  · rw [h1.2, h2.2]; simp [add_assoc]

/-- Fold of index-targeted updates, with an explicit per-step delta. -/
theorem foldl_delta {β : Type} (step : PolyAcc → β → PolyAcc) (d : β → ℕ → Point2) :
    ∀ bs : List β, (∀ a b, b ∈ bs → ∀ j, (step a b).v j = a.v j + d b j) →
      ∀ (a : PolyAcc) (j : ℕ),
        (bs.foldl step a).v j = a.v j + (bs.map (fun b => d b j)).sum := by
  intro bs
  induction bs with
  | nil => intro _ a j; simp
  | cons b t ih =>
    intro h a j
    rw [List.foldl_cons, List.map_cons, List.sum_cons,
      ih (fun a b hb j => h a b (List.mem_cons_of_mem _ hb) j) (step a b) j,
      h a b (List.mem_cons_self b t) j, add_assoc]

theorem sum_map_ite (js : List ℕ) (hnd : js.Nodup) (c : ℕ) (A : ℕ → Point2) :
    (js.map fun b => if b = c then A b else 0).sum = if c ∈ js then A c else 0 := by
  induction js with
  | nil => simp
  | cons b t ih =>
    rw [List.map_cons, List.sum_cons, ih hnd.of_cons]
    by_cases hbc : b = c
    · subst hbc
      have hb : b ∉ t := (List.nodup_cons.mp hnd).1
      simp [hb]
    · simp [hbc, List.mem_cons, Ne.symm hbc]

theorem sum_map_add {β : Type} (js : List β) (f g : β → Point2) :
    (js.map fun b => f b + g b).sum = (js.map f).sum + (js.map g).sum := by
  induction js with
  | nil => simp
  | cons b t ih =>
    simp only [List.map_cons, List.sum_cons, ih]
    apply Point2.ext_xy <;> simp <;> ring

/-- The per-index delta of one `area_grad` loop iteration `b ≥ 1`. -/
def _area_grad_d (p : Poly2) (g : ℚ) (b j : ℕ) : Point2 :=
  (if b = j then ⟨-(g / 2 * (vget p (b - 1)).y), g / 2 * (vget p (b - 1)).x⟩ else 0) +
  (if b = j + 1 then ⟨g / 2 * (vget p b).y, -(g / 2 * (vget p b).x)⟩ else 0)

theorem _area_grad_step_delta (p : Poly2) (g : ℚ) :
    ∀ (a : PolyAcc) (b : ℕ), b ∈ List.range' 1 (p.nvertices - 1) → ∀ j,
      ((((a.addX b (-(g / 2 * (vget p (b - 1)).y))).addY b
        (g / 2 * (vget p (b - 1)).x)).addX (b - 1) (g / 2 * (vget p b).y)).addY (b - 1)
        (-(g / 2 * (vget p b).x))).v j = a.v j + _area_grad_d p g b j := by
  intro a b hb j
  have hb1 : 1 ≤ b := (List.mem_range'_1.mp hb).1
  unfold _area_grad_d
  simp only [PolyAcc.addX, PolyAcc.addY, PolyAcc.addPt_v]
  split_ifs <;>
    first
      | omega
      | (apply Point2.ext_xy <;> simp <;> ring)

theorem area_grad_v (p : Poly2) (g : ℚ) (hn : ¬ p.nvertices ≤ 2) (acc : PolyAcc) (j : ℕ) :
    (area_grad p g acc).v j =
      (((((acc.setN p.nvertices).addX 0 (-(g / 2 * (vget p (p.nvertices - 1)).y))).addY 0
        (g / 2 * (vget p (p.nvertices - 1)).x)).addX (p.nvertices - 1)
        (g / 2 * (vget p 0).y)).addY (p.nvertices - 1) (-(g / 2 * (vget p 0).x))).v j
      + ((List.range' 1 (p.nvertices - 1)).map (fun b => _area_grad_d p g b j)).sum := by
  rw [area_grad, if_neg hn]
  exact foldl_delta _ _ _ (_area_grad_step_delta p g) _ j

/-- **C5.** For `n ≥ 3`, `area_grad` adds exactly
`g·(y_{i+1 mod n} − y_{i−1 mod n})/2` to the `x`-gradient and
`g·(x_{i−1 mod n} − x_{i+1 mod n})/2` to the `y`-gradient of every vertex
`i`; for `n ≤ 2` it adds nothing. -/
theorem claim_C5_area_grad (p : Poly2) (g : ℚ) (acc : PolyAcc) :
    (p.nvertices ≤ 2 → area_grad p g acc = acc) ∧
    (3 ≤ p.nvertices → ∀ i < p.nvertices,
      (area_grad p g acc).v i = acc.v i +
        ⟨g * ((vget p ((i + 1) % p.nvertices)).y
            - (vget p ((i + p.nvertices - 1) % p.nvertices)).y) / 2,
         g * ((vget p ((i + p.nvertices - 1) % p.nvertices)).x
            - (vget p ((i + 1) % p.nvertices)).x) / 2⟩) := by
  constructor
  · intro h
    rw [area_grad, if_pos h]
  · intro hn i hi
    have hnle : ¬ p.nvertices ≤ 2 := by omega
    rw [area_grad_v p g hnle acc i]
    have hnd : (List.range' 1 (p.nvertices - 1)).Nodup := List.nodup_range' _ _
    have hmem : ∀ c, c ∈ List.range' 1 (p.nvertices - 1) ↔ 1 ≤ c ∧ c < p.nvertices := by
      intro c
      rw [List.mem_range'_1]
      omega
    have hsum : ((List.range' 1 (p.nvertices - 1)).map (fun b => _area_grad_d p g b i)).sum
        = (if 1 ≤ i ∧ i < p.nvertices
            then (⟨-(g / 2 * (vget p (i - 1)).y), g / 2 * (vget p (i - 1)).x⟩ : Point2)
            else 0)
          + (if 1 ≤ i + 1 ∧ i + 1 < p.nvertices
            then (⟨g / 2 * (vget p (i + 1)).y, -(g / 2 * (vget p (i + 1)).x)⟩ : Point2)
            else 0) := by
      unfold _area_grad_d
      rw [sum_map_add, sum_map_ite _ hnd i _, sum_map_ite _ hnd (i + 1) _]
      simp only [hmem]
    rw [hsum]
    by_cases hi0 : i = 0
    · subst hi0
      have h1 : (0 + 1) % p.nvertices = 1 := Nat.mod_eq_of_lt (by omega)
      have h2 : (0 + p.nvertices - 1) % p.nvertices = p.nvertices - 1 := by
        rw [Nat.zero_add]; exact Nat.mod_eq_of_lt (by omega)
      rw [h1, h2, if_neg (by omega), if_pos (by omega)]
      simp only [PolyAcc.addX, PolyAcc.addY, PolyAcc.addPt_v, PolyAcc.setN_v]
      split_ifs <;> first | omega | (apply Point2.ext_xy <;> simp <;> ring)
    · by_cases hin : i = p.nvertices - 1
      · have h1 : (i + 1) % p.nvertices = 0 := by
          rw [show i + 1 = p.nvertices from by omega, Nat.mod_self]
        have h2 : (i + p.nvertices - 1) % p.nvertices = p.nvertices - 2 := by
          rw [show i + p.nvertices - 1 = p.nvertices + (p.nvertices - 2) from by omega,
            Nat.add_mod_left, Nat.mod_eq_of_lt (by omega)]
        rw [h1, h2, if_pos (by omega), if_neg (by omega),
          show i - 1 = p.nvertices - 2 from by omega]
        simp only [PolyAcc.addX, PolyAcc.addY, PolyAcc.addPt_v, PolyAcc.setN_v]
        split_ifs <;> first | omega | (apply Point2.ext_xy <;> simp <;> ring)
      · have h1 : (i + 1) % p.nvertices = i + 1 := Nat.mod_eq_of_lt (by omega)
        have h2 : (i + p.nvertices - 1) % p.nvertices = i - 1 := by
          rw [show i + p.nvertices - 1 = p.nvertices + (i - 1) from by omega,
            Nat.add_mod_left, Nat.mod_eq_of_lt (by omega)]
        rw [h1, h2, if_pos (by omega), if_pos (by omega)]
        simp only [PolyAcc.addX, PolyAcc.addY, PolyAcc.addPt_v, PolyAcc.setN_v]
        split_ifs <;> first | omega | (apply Point2.ext_xy <;> simp <;> ring)

/-- **C5 witness.** -/
theorem claim_C5_area_grad_witness :
    (area_grad (Poly2.mk [⟨0,0⟩, ⟨2,0⟩, ⟨3,2⟩, ⟨1,3⟩]) 1 pzero).v 0 = pzero.v 0 +
      ⟨1 * ((vget (Poly2.mk [⟨0,0⟩, ⟨2,0⟩, ⟨3,2⟩, ⟨1,3⟩]) ((0 + 1) % 4)).y
          - (vget (Poly2.mk [⟨0,0⟩, ⟨2,0⟩, ⟨3,2⟩, ⟨1,3⟩]) ((0 + 4 - 1) % 4)).y) / 2,
       1 * ((vget (Poly2.mk [⟨0,0⟩, ⟨2,0⟩, ⟨3,2⟩, ⟨1,3⟩]) ((0 + 4 - 1) % 4)).x
          - (vget (Poly2.mk [⟨0,0⟩, ⟨2,0⟩, ⟨3,2⟩, ⟨1,3⟩]) ((0 + 1) % 4)).x) / 2⟩ ∧
    area_grad (Poly2.mk [⟨0,0⟩, ⟨2,0⟩]) 1 pzero = pzero :=
  ⟨(claim_C5_area_grad (Poly2.mk [⟨0,0⟩, ⟨2,0⟩, ⟨3,2⟩, ⟨1,3⟩]) 1 pzero).2
      (by with_unfolding_all decide) 0 (by with_unfolding_all decide),
   (claim_C5_area_grad (Poly2.mk [⟨0,0⟩, ⟨2,0⟩]) 1 pzero).1 (by with_unfolding_all decide)⟩

/-! ### The remaining polygon-buffer adjoints accumulate (C8) -/

theorem area_grad_accumP (p : Poly2) (g : ℚ) : accumP (area_grad p g) := by
  intro acc j
  by_cases h : p.nvertices ≤ 2
  · simp only [area_grad, if_pos h]
    simp
  · rw [area_grad_v p g h acc j, area_grad_v p g h pzero j]
    simp only [PolyAcc.addX, PolyAcc.addY, PolyAcc.addPt_v, PolyAcc.setN_v, pzero_v]
    split_ifs <;> (apply Point2.ext_xy <;> simp <;> ring)

theorem distance_grad_poly_accumPPt (hyp : ℚ → ℚ → ℚ) (poly : Poly2) (p : Point2)
    (g : ℚ) (idx : ℕ) : accumPPt (distance_grad_poly hyp poly p g idx) := by
  intro acc j
  simp only [distance_grad_poly, distance_grad_sp, distance_grad_pp, distance_grad_lp,
    line2_from_segment2_grad, line2_from_xyxy_grad]
  split_ifs <;> constructor <;>
    simp only [PolyAcc.addPt_v, pzero_v] <;> (try split_ifs) <;>
    (apply Point2.ext_xy <;> simp <;> try ring)

theorem iou_grad_accumP2 (p1 p2 : Poly2) (g : ℚ) (nx : ℕ) (xflags : List ℕ) :
    accumP2 (iou_grad p1 p2 g nx xflags) := by
  intro acc j
  exact accumP2_comp
    (accumP2_pair (area_grad_accumP p1 _) (area_grad_accumP p2 _))
    (intersect_grad_accumP2 p1 p2 _ xflags) acc j

theorem giou_grad_accumP2 (p1 p2 : Poly2) (g : ℚ) (nx nm : ℕ)
    (xflags mflags : List ℕ) : accumP2 (giou_grad p1 p2 g nx nm xflags mflags) := by
  intro acc j
  exact accumP2_comp
    (accumP2_comp
      (accumP2_pair (area_grad_accumP p1 _) (area_grad_accumP p2 _))
      (intersect_grad_accumP2 p1 p2 _ xflags))
    (merge_grad_accumP2 p1 p2 _ mflags) acc j

theorem diou_grad_accumP2 (hyp : ℚ → ℚ → ℚ) (p1 p2 : Poly2) (g : ℚ) (nx : ℕ)
    (dflag1 dflag2 : ℕ) (xflags : List ℕ) :
    accumP2 (diou_grad hyp p1 p2 g nx dflag1 dflag2 xflags) := by
  intro acc j
  exact accumP2_comp
    (accumP2_comp
      (accumP2_comp
        (accumP2_comp
          (accumP2_pair (area_grad_accumP p1 _) (area_grad_accumP p2 _))
          (intersect_grad_accumP2 p1 p2 _ xflags))
        (accumP2_pair (centroid_grad_poly_accumP p1 _) (centroid_grad_poly_accumP p2 _)))
      (accumP2_condAddPt (dflag1 % 2 = 1) (dflag1 / 2) (dflag1 / 2) _))
    (accumP2_condAddPt (dflag2 % 2 = 1) (dflag2 / 2) (dflag2 / 2) _) acc j

/-- **C8.** Every adjoint (`_grad`) function only accumulates into its
gradient output parameters: for every forward input, every upstream
gradient, and every initial accumulator content, each gradient coordinate
after the call equals its value before the call plus the contribution the
same call deposits into a zero-initialised accumulator (`accum` for
fixed-shape accumulators, pointwise `accumP`/`accumP2`/`accumPPt` for the
polygon-buffer accumulators, whose `nvertices` field is bookkeeping, not a
gradient coordinate). -/
theorem claim_C8_adjoints_accumulate :
    (∀ a b g, accum (_max_grad a b g)) ∧
    (∀ a b g, accum (_min_grad a b g)) ∧
    (∀ x1 y1 x2 y2 g, accum (line2_from_xyxy_grad x1 y1 x2 y2 g)) ∧
    (∀ p1 p2 g, accum (line2_from_pp_grad p1 p2 g)) ∧
    (∀ g, accum (segment2_from_pp_grad g)) ∧
    (∀ s g, accum (line2_from_segment2_grad s g)) ∧
    (∀ g, accum (poly2_from_aabox2_grad g)) ∧
    (∀ p g, accumP (aabox2_from_poly2_grad p g)) ∧
    (∀ sn cs x y w h r g, accum (poly2_from_xywhr_grad sn cs x y w h r g)) ∧
    (∀ hyp p1 p2 g, accum (distance_grad_pp hyp p1 p2 g)) ∧
    (∀ hyp l p g, accum (distance_grad_lp hyp l p g)) ∧
    (∀ hyp s p g, accum (distance_grad_sp hyp s p g)) ∧
    (∀ hyp poly p g idx, accumPPt (distance_grad_poly hyp poly p g idx)) ∧
    (∀ a g, accum (area_grad_box a g)) ∧
    (∀ p g, accumP (area_grad p g)) ∧
    (∀ hyp a g, accum (dimension_grad_box hyp a g)) ∧
    (∀ hyp p g flag1 flag2, accumP (dimension_grad_poly hyp p g flag1 flag2)) ∧
    (∀ g, accum (center_grad_box g)) ∧
    (∀ p g, accumP (center_grad_poly p g)) ∧
    (∀ g, accum (centroid_grad_box g)) ∧
    (∀ p g, accumP (centroid_grad_poly p g)) ∧
    (∀ l1 l2 g, accum (intersect_grad_ll l1 l2 g)) ∧
    (∀ p1 p2 g xflags, accumP2 (intersect_grad p1 p2 g xflags)) ∧
    (∀ a1 a2 g, accum (intersect_grad_bb a1 a2 g)) ∧
    (∀ p1 p2 g mflags, accumP2 (merge_grad p1 p2 g mflags)) ∧
    (∀ a1 a2 g, accum (merge_grad_bb a1 a2 g)) ∧
    (∀ a1 a2 g, accum (iou_grad_bb a1 a2 g)) ∧
    (∀ p1 p2 g nx xflags, accumP2 (iou_grad p1 p2 g nx xflags)) ∧
    (∀ a1 a2 g, accum (giou_grad_bb a1 a2 g)) ∧
    (∀ p1 p2 g nx nm xflags mflags, accumP2 (giou_grad p1 p2 g nx nm xflags mflags)) ∧
    (∀ hyp a1 a2 g, accum (diou_grad_bb hyp a1 a2 g)) ∧
    (∀ hyp p1 p2 g nx dflag1 dflag2 xflags,
      accumP2 (diou_grad hyp p1 p2 g nx dflag1 dflag2 xflags)) :=
  ⟨_max_grad_accum, _min_grad_accum, line2_from_xyxy_grad_accum,
   line2_from_pp_grad_accum, segment2_from_pp_grad_accum,
   line2_from_segment2_grad_accum, poly2_from_aabox2_grad_accum,
   aabox2_from_poly2_grad_accumP, poly2_from_xywhr_grad_accum,
   distance_grad_pp_accum, distance_grad_lp_accum, distance_grad_sp_accum,
   distance_grad_poly_accumPPt, area_grad_box_accum, area_grad_accumP,
   dimension_grad_box_accum, dimension_grad_poly_accumP, center_grad_box_accum,
   center_grad_poly_accumP, centroid_grad_box_accum, centroid_grad_poly_accumP,
   intersect_grad_ll_accum, intersect_grad_accumP2, intersect_grad_bb_accum,
   merge_grad_accumP2, merge_grad_bb_accum, iou_grad_bb_accum, iou_grad_accumP2,
   giou_grad_bb_accum, giou_grad_accumP2, diou_grad_bb_accum, diou_grad_accumP2⟩

end dgal
